import Mathlib

/-! Copilot bridge (`.codex/copilot_bridge/bridge/server.js`).

A shallow embedding of the bridge server: the configuration resolver, the
manifest locator and writer, the `POST /copilot/run` handler and the timers
that supervise the spawned process.

JavaScript values are the JSON values plus `undefined`, `NaN` and the two
infinities.  A finite number is held by its exact value: an integer, or a
rational that is not an integer; what depends on the floating-point format
(the text of a number outside the safe integers, the rounding of a long run
of digits) is left to `Platform`.  Strings are Lean strings, and the functions
on them work on their list of characters.  What Node provides (SHA-256,
`JSON.stringify`, `path`, `os`) is a parameter of the model, collected in
`Platform`.
-/

namespace CopilotBridge

/-! ## JavaScript values -/

/-- JavaScript values that a JSON body or config file can hold, plus
`undefined` and `NaN`.  A number with an integer value is `num`, a number
whose value `q` is not an integer is `frac q`, and `inf` is `Infinity` or
`-Infinity` (the JSON number `1e999` is read as `Infinity`). -/
inductive JsVal where
  | undefined : JsVal
  | null : JsVal
  | nan : JsVal
  | bool (b : Bool) : JsVal
  | num (n : Int) : JsVal
  | frac (q : ℚ) : JsVal
  | inf (negative : Bool) : JsVal
  | str (s : String) : JsVal
  | arr (xs : List JsVal) : JsVal
  | obj (fields : List (String × JsVal)) : JsVal

namespace JsVal

/-- Truthiness, as used by `!v`, `v || w` and `if (v)`. -/
def truthy : JsVal → Bool
  | undefined => false
  | null => false
  | nan => false
  | bool b => b
  | num n => n != 0
  | frac q => q != 0
  | inf _ => true
  | str s => s.data != []
  | arr _ => true
  | obj _ => true

/-- The expression `a || b`. -/
def or (a b : JsVal) : JsVal := if a.truthy then a else b

/-- Whether `typeof v === 'string'`. -/
def isString : JsVal → Bool
  | str _ => true
  | _ => false

/-- Property read `v.key` on a value that is not `null` or `undefined`: own
properties of an object; none of the keys read by the bridge exists on an
array, a string, a number or a boolean. -/
def getProp (v : JsVal) (key : String) : JsVal :=
  match v with
  | obj fields => (fields.lookup key).getD undefined
  | _ => undefined

end JsVal

/-! ## Numbers -/

/-- The result of a conversion to a number: `NaN`, an integer, a value that
is not an integer, `Infinity` or `-Infinity`. -/
inductive JsNumber where
  | nan : JsNumber
  | int (n : Int) : JsNumber
  | frac (q : ℚ) : JsNumber
  | inf (negative : Bool) : JsNumber
deriving DecidableEq

namespace JsNumber

/-- The expression `-x`. -/
def neg : JsNumber → JsNumber
  | nan => nan
  | int n => int (-n)
  | frac q => frac (-q)
  | inf negative => inf (!negative)

/-- A number as a value. -/
def toVal : JsNumber → JsVal
  | nan => .nan
  | int n => .num n
  | frac q => .frac q
  | inf negative => .inf negative

end JsNumber

/-! ## The platform and the file system -/

/-- What Node and the host provide to the bridge. -/
structure Platform where
  /-- `crypto.createHash('sha256').update(buf).digest('hex')` -/
  sha256Hex : List Nat → String
  /-- `JSON.stringify(data, null, 2)` -/
  jsonStringify : JsVal → String
  /-- `JSON.parse` of the UTF-8 text of a file; `none` when it throws -/
  jsonParse : List Nat → Option JsVal
  /-- `Buffer.from(s, 'utf8')` -/
  utf8 : String → List Nat
  /-- `path.join(...)` -/
  pathJoin : List String → String
  /-- `path.isAbsolute(p)` -/
  pathIsAbsolute : String → Bool
  /-- `Number(s)` of a string -/
  stringToNumber : String → JsNumber
  /-- `String(x)` of a number that is not a safe integer (its absolute value
  is above 9007199254740991, or it is not an integer): the shortest decimal
  that reads back as the same double, in exponent form from 1e21 -/
  numberToString : ℚ → String
  /-- the Number value of a natural number above 9007199254740991, as
  `parseInt` returns it: the number is rounded to a double; `none` when the
  rounding is `Infinity` -/
  roundToNumber : Nat → Option Int
  /-- the exception that `spawn` throws for a system error that is not reported
  through the `error` event (an argument list that is too long, no memory);
  `none` when there is none -/
  spawnError : List JsVal → Option String
  /-- `path.join(__dirname, '..')` -/
  rootDir : String
  /-- `process.cwd()` -/
  processCwd : String
  /-- `os.hostname()` -/
  hostname : String
  /-- `os.userInfo().username` -/
  username : String
  /-- `process.pid` -/
  pid : Int

/-- The file system as the synchronous `fs` calls of the bridge see it; a call
that throws is `none`.  Paths are compared as strings. -/
structure FS where
  /-- `fs.readdirSync(p)` -/
  readdir : String → Option (List String)
  /-- `fs.statSync(p).mtimeMs` -/
  mtimeMs : String → Option Int
  /-- `fs.readFileSync(p)` -/
  readFile : String → Option (List Nat)
  /-- `fs.existsSync(p)` -/
  pathExists : String → Bool
  /-- whether `fs.writeFileSync(p, buf)` succeeds -/
  writable : String → Bool

namespace FS

/-- The call `fs.writeFileSync(p, buf)` at clock reading `now`; `none` when it
throws.  Afterwards `p` exists and holds `buf`; the listings of directories
are left as they were. -/
def writeFile (fs : FS) (p : String) (buf : List Nat) (now : Int) : Option FS :=
  if fs.writable p then
    some { fs with
      readFile := fun q => if q = p then some buf else fs.readFile q
      mtimeMs := fun q => if q = p then some now else fs.mtimeMs q
      pathExists := fun q => if q = p then true else fs.pathExists q }
  else none

/-- The call `fs.existsSync(v)`: false for anything that is not a path. -/
def existsSync (fs : FS) (v : JsVal) : Bool :=
  match v with
  | .str p => fs.pathExists p
  | _ => false

end FS

/-! ## Strings -/

/-- White space and line terminators of ECMAScript, the characters that
`String.prototype.trim` and `parseInt` strip. -/
def isJsWhitespace (c : Char) : Bool :=
  let n := c.toNat
  n == 0x09 || n == 0x0A || n == 0x0B || n == 0x0C || n == 0x0D || n == 0x20 ||
  n == 0xA0 || n == 0x1680 || (0x2000 ≤ n && n ≤ 0x200A) || n == 0x2028 ||
  n == 0x2029 || n == 0x202F || n == 0x205F || n == 0x3000 || n == 0xFEFF

/-- Drop the leading white space of a character list. -/
def trimStartChars : List Char → List Char
  | [] => []
  | c :: cs => if isJsWhitespace c then trimStartChars cs else c :: cs

/-- Drop the trailing white space of a character list. -/
def trimEndChars (cs : List Char) : List Char :=
  (trimStartChars cs.reverse).reverse

/-- The characters of `s.trim()`. -/
def trimChars (cs : List Char) : List Char :=
  trimEndChars (trimStartChars cs)

/-- The method `s.trim()`. -/
def jsTrim (s : String) : String := String.mk (trimChars s.data)

/-- The pieces of a character list between the occurrences of `sep`; an empty
list has one empty piece, as `''.split(',')` is `['']`. -/
def splitChars (sep : Char) : List Char → List (List Char)
  | [] => [[]]
  | c :: cs =>
    if c = sep then [] :: splitChars sep cs
    else
      match splitChars sep cs with
      | [] => [[c]]
      | p :: ps => (c :: p) :: ps

/-- The method `s.split(',')`. -/
def jsSplitComma (s : String) : List String :=
  (splitChars ',' s.data).map String.mk

/-- The tool list of a comma-separated string:
`s.split(',').map(s => s.trim()).filter(Boolean)`. -/
def parseToolList (s : String) : List String :=
  ((jsSplitComma s).map jsTrim).filter (fun t => t.data != [])

/-- The method `s.startsWith(p)` on character lists. -/
def startsWithChars : List Char → List Char → Bool
  | _, [] => true
  | [], _ :: _ => false
  | c :: cs, p :: ps => c == p && startsWithChars cs ps

/-- The method `s.startsWith(p)`. -/
def jsStartsWith (s p : String) : Bool := startsWithChars s.data p.data

/-- The method `s.endsWith(p)`. -/
def jsEndsWith (s p : String) : Bool := startsWithChars s.data.reverse p.data.reverse

/-- The characters `t` are `p` with its surrounding white space removed. -/
def IsTrimOf (t p : List Char) : Prop :=
  ∃ l r : List Char, p = l ++ t ++ r ∧
    (∀ c ∈ l, isJsWhitespace c = true) ∧ (∀ c ∈ r, isJsWhitespace c = true) ∧
    (∀ c, t.head? = some c → isJsWhitespace c = false) ∧
    (∀ c, t.getLast? = some c → isJsWhitespace c = false)


/-! ## Conversions -/

/-- The conversion `String(n)` of a number with an integer value: its decimal
digits for a safe integer, the text of the double otherwise. -/
def integerText (P : Platform) (n : Int) : String :=
  if -9007199254740991 ≤ n ∧ n ≤ 9007199254740991 then toString n
  else P.numberToString n

mutual
/-- Whether the conversion of a value to a primitive throws a `TypeError`, in
`String(v)`, in a template literal and in `Number(v)`.  The conversion of an
object calls its `toString` and `valueOf`: an own property `toString` of a
JSON object is not callable and hides `Object.prototype.toString`, and
`Object.prototype.valueOf` returns the object itself.  The conversion of an
array joins it, which converts its elements other than `null`. -/
def convertThrows : JsVal → Bool
  | .obj fields => (fields.lookup "toString").isSome
  | .arr xs => convertThrowsAny xs
  | _ => false
/-- Whether the conversion of one of the values throws. -/
def convertThrowsAny : List JsVal → Bool
  | [] => false
  | x :: rest => convertThrows x || convertThrowsAny rest
end

/-- The message of the `TypeError` of a conversion that throws. -/
def conversionError : String := "TypeError: Cannot convert object to primitive value"

mutual
/-- The conversion `String(v)` of a value for which it does not throw. -/
def jsToString (P : Platform) : JsVal → String
  | .undefined => "undefined"
  | .null => "null"
  | .nan => "NaN"
  | .bool b => if b then "true" else "false"
  | .num n => integerText P n
  | .frac q => P.numberToString q
  | .inf negative => if negative then "-Infinity" else "Infinity"
  | .str s => s
  | .arr xs => jsJoinElems P xs
  | .obj _ => "[object Object]"
/-- The method `xs.join(',')`: `null` and `undefined` elements give the empty
string, every other element its `String(v)`. -/
def jsJoinElems (P : Platform) : List JsVal → String
  | [] => ""
  | x :: rest =>
    let head := match x with
      | .undefined => ""
      | .null => ""
      | v => jsToString P v
    match rest with
    | [] => head
    | _ :: _ => head ++ "," ++ jsJoinElems P rest
end

/-- The value of a decimal digit. -/
def digitVal (c : Char) : Option Nat :=
  if 48 ≤ c.toNat ∧ c.toNat ≤ 57 then some (c.toNat - 48) else none

/-- The values of the leading decimal digits of a character list. -/
def leadingDigits : List Char → List Nat
  | [] => []
  | c :: cs =>
    match digitVal c with
    | some d => d :: leadingDigits cs
    | none => []

/-- The Number value of the natural number read by `parseInt`: the number
itself when it is a safe integer, its rounding to a double otherwise. -/
def numberOfNat (P : Platform) (v : Nat) : JsNumber :=
  if v ≤ 9007199254740991 then .int v
  else
    match P.roundToNumber v with
    | some n => .int n
    | none => .inf false

/-- The call `parseInt(s, 10)`: leading white space is skipped, one sign is
read, then the longest run of decimal digits; `NaN` when there is no digit. -/
def parseInt10 (P : Platform) (s : String) : JsNumber :=
  let cs := trimStartChars s.data
  let signed : Bool × List Char :=
    match cs with
    | c :: r => if c = '-' then (true, r) else if c = '+' then (false, r) else (false, cs)
    | [] => (false, [])
  let ds := leadingDigits signed.2
  match ds with
  | [] => .nan
  | _ :: _ =>
    let v : JsNumber := numberOfNat P (ds.foldl (fun a d => a * 10 + d) 0)
    if signed.1 then v.neg else v

/-- Lower case of a Basic Latin letter; `s.toLowerCase() === 'true'` depends
on no other mapping, since only `T`, `R`, `U`, `E` have `t`, `r`, `u`, `e` as
their lower case. -/
def lowerChar (c : Char) : Char :=
  if 65 ≤ c.toNat ∧ c.toNat ≤ 90 then Char.ofNat (c.toNat + 32) else c

/-- The method `s.toLowerCase()`, on Basic Latin. -/
def jsToLowerCase (s : String) : String := String.mk (s.data.map lowerChar)

/-! ## Configuration -/

/-- The resolved settings (`config`). -/
structure Config where
  bind : String
  port : JsNumber
  defaultCwd : JsVal
  defaultTimeoutMs : JsNumber
  allowAllTools : Bool
  allowTools : List String
  denyTools : List String
  manifestDir : JsVal
  logDir : JsVal

/-- The function `readJSON(p, fallback = {})`. -/
def readJSON (P : Platform) (fs : FS) (p : String) (fallback : JsVal) : JsVal :=
  match fs.readFile p with
  | none => fallback
  | some bytes =>
    match P.jsonParse bytes with
    | none => fallback
    | some v => v

/-- The constant `defaultAllowTools`. -/
def defaultAllowTools : List String := ["shell", "git", "gh", "write"]

/-- The constant `defaultDenyTools`. -/
def defaultDenyTools : List String :=
  ["shell(rm)", "shell(sudo)", "shell(dd)", "shell(curl -X POST)", "shell(wget)",
   "shell(docker push)"]

/-- The read `env.NAME`. -/
def envGet (env : String → Option String) (name : String) : JsVal :=
  match env name with
  | some s => .str s
  | none => .undefined

/-- The read `cfgFromFile.key`, a `TypeError` on `null`. -/
def readProp (v : JsVal) (key : String) : Except String JsVal :=
  match v with
  | .null => .error "TypeError: cannot read properties of null"
  | .undefined => .error "TypeError: cannot read properties of undefined"
  | _ => .ok (v.getProp key)

/-- The conversion `String(v)`, a `TypeError` when it throws. -/
def stringOf (P : Platform) (v : JsVal) : Except String String :=
  if convertThrows v then .error conversionError else .ok (jsToString P v)

/-- The call `v.join(',')`, a `TypeError` when `v` is not an array or when the
conversion of an element throws. -/
def arrayJoin (P : Platform) (v : JsVal) : Except String String :=
  match v with
  | .arr xs => stringOf P (.arr xs)
  | _ => .error "TypeError: join is not a function"

/-- The expression `env.NAME || cfgFromFile.key || dflt`. -/
def envFileDefault (env : String → Option String) (cfgFromFile : JsVal)
    (name key : String) (dflt : JsVal) : Except String JsVal :=
  if (envGet env name).truthy then .ok (envGet env name)
  else do
    let c ← readProp cfgFromFile key
    pure (c.or dflt)

/-- The expression `env.NAME || String(cfgFromFile.key || dflt)`. -/
def textSetting (P : Platform) (env : String → Option String) (cfgFromFile : JsVal)
    (name key : String) (dflt : JsVal) : Except String String :=
  if (envGet env name).truthy then .ok (jsToString P (envGet env name))
  else do
    let c ← readProp cfgFromFile key
    stringOf P (c.or dflt)

/-- The expression
`(env.NAME || (cfgFromFile.key || dflt).join(',')).split(',').map(s => s.trim()).filter(Boolean)`. -/
def toolListSetting (P : Platform) (env : String → Option String) (cfgFromFile : JsVal)
    (name key : String) (dflt : List String) : Except String (List String) :=
  if (envGet env name).truthy then .ok (parseToolList (jsToString P (envGet env name)))
  else do
    let c ← readProp cfgFromFile key
    let joined ← arrayJoin P (c.or (.arr (dflt.map .str)))
    pure (parseToolList joined)

/-- The object literal `config`, its fields evaluated in source order; an
exception thrown on the way ends the start-up. -/
def resolveConfig (P : Platform) (env : String → Option String) (cfgFromFile : JsVal) :
    Except String Config := do
  let bind := jsToString P ((envGet env "BRIDGE_BIND").or (.str "127.0.0.1"))
  let port := parseInt10 P (jsToString P ((envGet env "BRIDGE_PORT").or (.str "7777")))
  let defaultCwd ← envFileDefault env cfgFromFile "DEFAULT_CWD" "defaultCwd" (.str P.processCwd)
  let timeoutText ← textSetting P env cfgFromFile "DEFAULT_TIMEOUT_MS" "defaultTimeoutMs"
    (.num 600000)
  let allowAllText ← textSetting P env cfgFromFile "ALLOW_ALL_TOOLS" "allowAllTools"
    (.bool false)
  let allowTools ← toolListSetting P env cfgFromFile "DEFAULT_ALLOW_TOOLS" "allowTools"
    defaultAllowTools
  let denyTools ← toolListSetting P env cfgFromFile "DEFAULT_DENY_TOOLS" "denyTools"
    defaultDenyTools
  let manifestDir ← envFileDefault env cfgFromFile "MANIFEST_DIR" "manifestDir"
    (.str (P.pathJoin [P.rootDir, "var", "manifests"]))
  let logDir ← envFileDefault env cfgFromFile "LOG_DIR" "logDir"
    (.str (P.pathJoin [P.rootDir, "var", "logs"]))
  pure {
    bind := bind
    port := port
    defaultCwd := defaultCwd
    defaultTimeoutMs := parseInt10 P timeoutText
    allowAllTools := jsToLowerCase allowAllText == "true"
    allowTools := allowTools
    denyTools := denyTools
    manifestDir := manifestDir
    logDir := logDir }

/-- The start of the module: `cfgFromFile` is read from
`config/bridge.config.json` under the root directory, then `config` is built. -/
def loadConfig (P : Platform) (env : String → Option String) (fs : FS) : Except String Config :=
  resolveConfig P env
    (readJSON P fs (P.pathJoin [P.rootDir, "config", "bridge.config.json"]) (.obj []))

/-! ## Time stamps -/

/-- The decimal digit character of `d % 10`. -/
def digitChar (d : Nat) : Char :=
  match d % 10 with
  | 0 => '0' | 1 => '1' | 2 => '2' | 3 => '3' | 4 => '4'
  | 5 => '5' | 6 => '6' | 7 => '7' | 8 => '8' | _ => '9'

/-- Two decimal digits. -/
def pad2 (n : Nat) : List Char := [digitChar (n / 10), digitChar n]

/-- Three decimal digits. -/
def pad3 (n : Nat) : List Char := [digitChar (n / 100), digitChar (n / 10), digitChar n]

/-- Four decimal digits. -/
def pad4 (n : Nat) : List Char :=
  [digitChar (n / 1000), digitChar (n / 100), digitChar (n / 10), digitChar n]

/-- Six decimal digits. -/
def pad6 (n : Nat) : List Char :=
  [digitChar (n / 100000), digitChar (n / 10000), digitChar (n / 1000), digitChar (n / 100),
   digitChar (n / 10), digitChar n]

/-- Year, month and day of the proleptic Gregorian calendar for a day number
counted from 1970-01-01. -/
def civilFromDays (day : Int) : Int × Int × Int :=
  let z := day + 719468
  let era := z / 146097
  let doe := z % 146097
  let yoe := (doe - doe / 1460 + doe / 36524 - doe / 146096) / 365
  let doy := doe - (365 * yoe + yoe / 4 - yoe / 100)
  let mp := (5 * doy + 2) / 153
  let d := doy - (153 * mp + 2) / 5 + 1
  let m := if mp < 10 then mp + 3 else mp - 9
  let y := yoe + era * 400 + (if m ≤ 2 then 1 else 0)
  (y, m, d)

/-- The characters of `new Date(t).toISOString()` for a time value `t` in
milliseconds since the epoch: `YYYY-MM-DDTHH:mm:ss.sssZ`, the year with a sign
and six digits outside 0 to 9999. -/
def isoChars (t : Int) : List Char :=
  let day := t / 86400000
  let tod := (t % 86400000).toNat
  let ymd := civilFromDays day
  let y := ymd.1
  let year : List Char :=
    if 0 ≤ y ∧ y ≤ 9999 then pad4 y.toNat
    else (if y < 0 then '-' else '+') :: pad6 y.natAbs
  year ++ ['-'] ++ pad2 ymd.2.1.toNat ++ ['-'] ++ pad2 ymd.2.2.toNat ++ ['T'] ++
    pad2 (tod / 3600000) ++ [':'] ++ pad2 (tod / 60000 % 60) ++ [':'] ++
    pad2 (tod / 1000 % 60) ++ ['.'] ++ pad3 (tod % 1000) ++ ['Z']

/-- The method `new Date(t).toISOString()`. -/
def toISOString (t : Int) : String := String.mk (isoChars t)

/-- One character of `.replace(/[:.]/g, '-')`. -/
def replaceColonDot (c : Char) : Char := if c = ':' ∨ c = '.' then '-' else c

/-- The time stamp of a manifest name:
`new Date(t).toISOString().replace(/[:.]/g, '-')`. -/
def manifestStamp (t : Int) : String := String.mk ((isoChars t).map replaceColonDot)

/-- The file name of the bridge manifest written at time `t`. -/
def bridgeManifestName (t : Int) : String :=
  "bridge.manifest." ++ manifestStamp t ++ ".json"

/-! ## Manifests -/

/-- A manifest reference `{ path, sha256 }`. -/
structure ManifestRef where
  path : String
  sha256 : String
deriving DecidableEq

/-- The reference `{ path: '', sha256: '' }`. -/
def ManifestRef.none : ManifestRef := { path := "", sha256 := "" }

/-- The function `hashSha256(buf)`. -/
def hashSha256 (P : Platform) (buf : List Nat) : String := P.sha256Hex buf

/-- Whether a directory entry is a manifest of the CLI:
`f.startsWith('.copilot.manifest.') && f.endsWith('.json')`. -/
def isCliManifestName (f : String) : Bool :=
  jsStartsWith f ".copilot.manifest." && jsEndsWith f ".json"

/-- The modification time of every path of a list, `none` when a `statSync`
throws. -/
def statAll (fs : FS) : List String → Option (List (String × Int))
  | [] => some []
  | p :: ps =>
    match fs.mtimeMs p with
    | none => none
    | some t =>
      match statAll fs ps with
      | none => none
      | some rest => some ((p, t) :: rest)

/-- The order of `full.sort((a, b) => mtime(b) - mtime(a))`: `a` may stand
before `b` when the comparator is not positive. -/
def newerFirst (a b : String × Int) : Prop := b.2 ≤ a.2

instance : DecidableRel newerFirst := fun a b => inferInstanceAs (Decidable (b.2 ≤ a.2))

instance : IsTotal (String × Int) newerFirst := ⟨fun a b => le_total b.2 a.2⟩

instance : IsTrans (String × Int) newerFirst := ⟨fun _ _ _ hab hbc => le_trans hbc hab⟩

/-- The sorted array of `full.sort(...)`: a stable sort, newest first.  An
array of one element is returned without a call of the comparator; with two
or more every element is passed to `statSync`, and a throw there is `none`. -/
def sortByMtime (fs : FS) (full : List String) : Option (List String) :=
  match full with
  | [] => some []
  | [p] => some [p]
  | _ :: _ :: _ =>
    match statAll fs full with
    | none => none
    | some timed => some ((timed.insertionSort newerFirst).map Prod.fst)

/-- The entries of a directory listing that `findLatestCliManifest` keeps:
`readdirSync(cwd).filter(f => ...)`. -/
def cliManifestEntries (names : List String) : List String := names.filter isCliManifestName

/-- The function `findLatestCliManifest(cwd)`. -/
def findLatestCliManifest (P : Platform) (fs : FS) (cwd : String) : ManifestRef :=
  match fs.readdir cwd with
  | none => ManifestRef.none
  | some names =>
    let entries := cliManifestEntries names
    if entries.length = 0 then ManifestRef.none
    else
      let full := entries.map (fun f => P.pathJoin [cwd, f])
      match sortByMtime fs full with
      | none => ManifestRef.none
      | some sorted =>
        match sorted.head? with
        | none => ManifestRef.none
        | some p =>
          match fs.readFile p with
          | none => ManifestRef.none
          | some buf => { path := p, sha256 := hashSha256 P buf }

/-- The path `p` of the manifest that `writeBridgeManifest(dir, data)` writes
at clock reading `now`. -/
def bridgeManifestPath (P : Platform) (now : Int) (dir : String) : String :=
  let fname := bridgeManifestName now
  let outDir := if P.pathIsAbsolute dir then dir else P.pathJoin [P.rootDir, dir]
  P.pathJoin [outDir, fname]

/-- The function `writeBridgeManifest(dir, data)` called at clock reading
`now`; `none` when it throws.  The result is the returned reference and the
file system after the write. -/
def writeBridgeManifest (P : Platform) (fs : FS) (now : Int) (dir : String) (data : JsVal) :
    Option (ManifestRef × FS) :=
  let p := bridgeManifestPath P now dir
  match data with
  | .undefined => none
  | _ =>
    let buf := P.utf8 (P.jsonStringify data)
    match fs.writeFile p buf now with
    | none => none
    | some fs' => some ({ path := p, sha256 := hashSha256 P buf }, fs')

/-! ## The handler of `POST /copilot/run` -/

/-- A destructuring default `{ x = d }`: `d` replaces only `undefined`. -/
def orDefault (v d : JsVal) : JsVal :=
  match v with
  | .undefined => d
  | _ => v

/-- The variables bound by the destructuring of `req.body || {}`. -/
structure RunInput where
  prompt : JsVal
  cwd : JsVal
  timeoutMs : JsVal
  allowAllTools : JsVal
  allowTools : JsVal
  denyTools : JsVal

/-- The destructuring of `req.body || {}` with the defaults of `config`. -/
def destructureBody (cfg : Config) (body : JsVal) : RunInput :=
  let b := body.or (.obj [])
  { prompt := b.getProp "prompt"
    cwd := orDefault (b.getProp "cwd") cfg.defaultCwd
    timeoutMs := orDefault (b.getProp "timeoutMs") cfg.defaultTimeoutMs.toVal
    allowAllTools := orDefault (b.getProp "allowAllTools") (.bool cfg.allowAllTools)
    allowTools := orDefault (b.getProp "allowTools") (.arr (cfg.allowTools.map .str))
    denyTools := orDefault (b.getProp "denyTools") (.arr (cfg.denyTools.map .str)) }

/-- The test `!prompt || typeof prompt !== 'string' || prompt.trim().length === 0`. -/
def promptRejected (v : JsVal) : Bool :=
  !v.truthy || !v.isString ||
    match v with
    | .str s => (jsTrim s).data.length == 0
    | _ => false

/-- The elements visited by `for (const t of v || [])`, a `TypeError` when the
value is not iterable; a string is visited character by character. -/
def iterate (v : JsVal) : Except String (List JsVal) :=
  match v.or (.arr []) with
  | .arr xs => .ok xs
  | .str s => .ok (s.data.map (fun c => .str (String.mk [c])))
  | _ => .error "TypeError: not iterable"

/-- The array `args` after the pushes of the handler. -/
def buildArgs (inp : RunInput) : Except String (List JsVal) :=
  let args : List JsVal := [.str "-p", inp.prompt]
  if inp.allowAllTools.truthy then
    .ok (args ++ [.str "--allow-all-tools"])
  else do
    let allowed ← iterate inp.allowTools
    let args := allowed.foldl (fun acc t => acc ++ [.str "--allow-tool", t]) args
    let denied ← iterate inp.denyTools
    pure (denied.foldl (fun acc t => acc ++ [.str "--deny-tool", t]) args)

/-- The conversion `Number(v)` of a value for which it does not throw. -/
def jsToNumber (P : Platform) (v : JsVal) : JsNumber :=
  match v with
  | .undefined => .nan
  | .null => .int 0
  | .nan => .nan
  | .bool b => .int (if b then 1 else 0)
  | .num n => .int n
  | .frac q => .frac q
  | .inf negative => .inf negative
  | .str s => P.stringToNumber s
  | .arr xs => P.stringToNumber (jsToString P (.arr xs))
  | .obj fields => P.stringToNumber (jsToString P (.obj fields))

/-- The expression `Math.max(1, timeoutMs)`. -/
def mathMax1 (P : Platform) (v : JsVal) : JsNumber :=
  match jsToNumber P v with
  | .nan => .nan
  | .int n => .int (max 1 n)
  | .frac q => if q < 1 then .int 1 else .frac q
  | .inf negative => if negative then .int 1 else .inf false

/-- The delay in milliseconds of `setTimeout(f, d)`: a delay that is `NaN`,
less than 1 or larger than 2147483647 is set to 1, and a delay that is not an
integer is truncated to one. -/
def timerDelay (d : JsNumber) : Int :=
  match d with
  | .nan => 1
  | .int n => if 1 ≤ n ∧ n ≤ 2147483647 then n else 1
  | .frac q => if 1 ≤ q ∧ q ≤ 2147483647 then Int.floor q else 1
  | .inf _ => 1

/-- Whether a value is a string that holds the character U+0000. -/
def hasNul (v : JsVal) : Bool :=
  match v with
  | .str s => s.data.any (fun c => c.toNat == 0)
  | _ => false

/-- The exception that `spawn(cmd, args, options)` throws instead of returning
a child: a `TypeError` for a string argument with a null byte, or a system
error of the platform; `none` when a child is returned. -/
def spawnThrows (P : Platform) (args : List JsVal) : Option String :=
  if args.any hasNul then
    some "TypeError [ERR_INVALID_ARG_VALUE]: args must be strings without null bytes"
  else P.spawnError args

/-- The exception that leaves the handler between the call of `spawn` and the
attaching of the `error` and `close` handlers: thrown by `spawn`, or by
`Math.max(1, timeoutMs)` when the timer is armed. -/
def launchThrows (P : Platform) (args : List JsVal) (timeoutMs : JsVal) : Option String :=
  match spawnThrows P args with
  | some e => some e
  | none => if convertThrows timeoutMs then some conversionError else none

/-- What `spawn` was called with, what the handler threw when it threw, and
the variables the event handlers of the run close over. -/
structure Launch where
  cmd : String
  args : List JsVal
  workdir : String
  /-- the exception that left the handler, by `spawn` or by the arming of the
  timer; `none` when the handler ran to its end -/
  thrown : Option String
  delay : JsNumber
  input : RunInput
  started : Int

/-- The outcome of the synchronous part of the handler. -/
inductive Outcome where
  /-- `return res.status(status).json(body)`: nothing was spawned or written -/
  | responded (status : Nat) (body : JsVal)
  /-- an exception before `spawn`, which leaves the handler -/
  | threw (e : String)
  /-- `spawn(cmd, args, ...)` was called; the handler ran to its end, the
  timer armed and the handlers attached, or an exception left it -/
  | spawned (l : Launch)

/-- The path tested by `fs.existsSync(workdir)` when the test succeeds; the
test fails for every value that is not a string. -/
def existingPath (fs : FS) (v : JsVal) : Option String :=
  match v with
  | .str p => if fs.pathExists p then some p else none
  | _ => none

/-- The handler of `POST /copilot/run` up to the arming of the timer, at clock
reading `now`.  Nothing in the handler catches an exception. -/
def handleRun (P : Platform) (cfg : Config) (fs : FS) (now : Int) (body : JsVal) : Outcome :=
  let inp := destructureBody cfg body
  if promptRejected inp.prompt then
    .responded 400 (.obj [("ok", .bool false), ("error", .str "prompt is required")])
  else
    match existingPath fs inp.cwd with
    | none =>
      match stringOf P inp.cwd with
      | .error e => .threw e
      | .ok text =>
        .responded 400 (.obj [("ok", .bool false),
          ("error", .str ("cwd does not exist: " ++ text))])
    | some workdir =>
      match buildArgs inp with
      | .error e => .threw e
      | .ok args =>
        .spawned {
          cmd := "copilot"
          args := args
          workdir := workdir
          thrown := launchThrows P args inp.timeoutMs
          delay := mathMax1 P inp.timeoutMs
          input := inp
          started := now }

/-! ## The supervised run -/

/-- The signals the bridge sends. -/
inductive Signal where
  | SIGTERM
  | SIGKILL
deriving DecidableEq

/-- The state of one run after `spawn`. -/
structure Run where
  launch : Launch
  /-- the clock, in milliseconds since the epoch -/
  now : Int
  fs : FS
  /-- the child still has its process handle: the process has not exited and
  did not fail to launch -/
  childAlive : Bool
  /-- the time at which the pending timer `killer` is due -/
  killer : Option Int
  /-- the times at which the pending inner timers are due -/
  grace : List Int
  killedByTimeout : Bool
  stdout : String
  stderr : String
  /-- the calls `child.kill(sig)`, oldest first, with the time of the call -/
  killCalls : List (Int × Signal)
  /-- the signals sent to the process: `child.kill` sends nothing once the
  handle is gone -/
  signals : List (Int × Signal)
  /-- the calls `res.status(s).json(body)`, oldest first -/
  responses : List (Nat × JsVal)
  /-- the records passed to `writeBridgeManifest` with the reference returned -/
  manifests : List (JsVal × ManifestRef)
  /-- an exception left an event handler: the server process has ended -/
  crashed : Bool

/-- What can happen to a run. -/
inductive Event where
  /-- time passes -/
  | tick (dt : Nat)
  /-- the file system changes under the bridge (the child writes files) -/
  | world (fs : FS)
  /-- a chunk on the standard output of the child -/
  | stdoutData (d : String)
  /-- a chunk on the standard error of the child -/
  | stderrData (d : String)
  /-- the callback of the timer `killer` runs -/
  | deadline
  /-- the callback of the inner timer runs -/
  | graceExpired
  /-- the process of the child exits: Node releases its handle; the bridge has
  no handler for the `exit` event -/
  | childExit
  /-- the `error` event of a child that could not be launched, with
  `String(e)` -/
  | childError (e : String)
  /-- the `close` event of the child, after its exit or its `error`; `none` is
  the code `null` of a process ended by a signal -/
  | childClose (rc : Option Int)

/-- The events with a handler that answers the request: the `error` and the
`close` of the child. -/
def Event.isTerminal : Event → Bool
  | .childError _ => true
  | .childClose _ => true
  | _ => false

/-- The state right after `spawn` and `setTimeout`. -/
def Run.start (l : Launch) (fs : FS) : Run :=
  { launch := l
    now := l.started
    fs := fs
    childAlive := true
    killer := some (l.started + timerDelay l.delay)
    grace := []
    killedByTimeout := false
    stdout := ""
    stderr := ""
    killCalls := []
    signals := []
    responses := []
    manifests := []
    crashed := false }

/-- The call `child.kill(sig)`: the signal is sent while the child has its
handle, and nothing is done afterwards. -/
def Run.kill (r : Run) (sig : Signal) : Run :=
  { r with
    killCalls := r.killCalls ++ [(r.now, sig)]
    signals := if r.childAlive then r.signals ++ [(r.now, sig)] else r.signals }

/-- An exit code as a value. -/
def rcValue : Option Int → JsVal
  | some n => .num n
  | none => .null

/-- The record written by the `error` handler. -/
def errorManifestData (P : Platform) (r : Run) (e : String) : JsVal :=
  .obj [
    ("version", .num 1),
    ("started_at", .str (toISOString r.launch.started)),
    ("ended_at", .str (toISOString r.now)),
    ("duration_ms", .num (r.now - r.launch.started)),
    ("host", .str P.hostname),
    ("user", .str P.username),
    ("pid", .num P.pid),
    ("exec", .obj [("cmd", .str r.launch.cmd), ("args", .arr r.launch.args),
      ("cwd", .str r.launch.workdir)]),
    ("result", .obj [("rc", .num (-1)), ("bytes_stdout", .num 0), ("bytes_stderr", .num 0),
      ("error", .str e)])]

/-- The body sent by the `error` handler. -/
def errorResponse (r : Run) (e : String) (bridge : ManifestRef) : JsVal :=
  .obj [
    ("ok", .bool false),
    ("error", .str ("spawn error: " ++ e)),
    ("rc", .num (-1)),
    ("stdout", .str ""),
    ("stderr", .str e),
    ("bytes_stdout", .num 0),
    ("bytes_stderr", .num 0),
    ("started_at", .str (toISOString r.launch.started)),
    ("ended_at", .str (toISOString r.now)),
    ("duration_ms", .num (r.now - r.launch.started)),
    ("manifest_path", .str ""),
    ("manifest_sha256", .str ""),
    ("bridge_manifest_path", .str bridge.path),
    ("bridge_manifest_sha256", .str bridge.sha256)]

/-- The call `Buffer.byteLength(v, 'utf8')` of a value that is a string. -/
def byteLength (P : Platform) (s : String) : Int := ((P.utf8 s).length : Nat)

/-- The record written by the `close` handler. -/
def closeManifestData (P : Platform) (r : Run) (rc : Option Int) (cli : ManifestRef) : JsVal :=
  .obj [
    ("version", .num 1),
    ("started_at", .str (toISOString r.launch.started)),
    ("ended_at", .str (toISOString r.now)),
    ("duration_ms", .num (r.now - r.launch.started)),
    ("host", .str P.hostname),
    ("user", .str P.username),
    ("pid", .num P.pid),
    ("exec", .obj [("cmd", .str r.launch.cmd), ("args", .arr r.launch.args),
      ("cwd", .str r.launch.workdir), ("killed_by_timeout", .bool r.killedByTimeout)]),
    ("input", .obj [("allowAllTools", r.launch.input.allowAllTools),
      ("allowTools", r.launch.input.allowTools), ("denyTools", r.launch.input.denyTools),
      ("prompt_bytes", .num (byteLength P (jsToString P r.launch.input.prompt)))]),
    ("output", .obj [("bytes_stdout", .num (byteLength P r.stdout)),
      ("bytes_stderr", .num (byteLength P r.stderr))]),
    ("result", .obj [("rc", rcValue rc)]),
    ("cli_manifest", .obj [("path", .str cli.path), ("sha256", .str cli.sha256)])]

/-- The body sent by the `close` handler; `rc === 0` holds for the number 0
only. -/
def closeResponse (P : Platform) (r : Run) (rc : Option Int) (cli bridge : ManifestRef) : JsVal :=
  .obj [
    ("ok", .bool (rc == some 0)),
    ("rc", rcValue rc),
    ("stdout", .str r.stdout),
    ("stderr", .str r.stderr),
    ("bytes_stdout", .num (byteLength P r.stdout)),
    ("bytes_stderr", .num (byteLength P r.stderr)),
    ("started_at", .str (toISOString r.launch.started)),
    ("ended_at", .str (toISOString r.now)),
    ("duration_ms", .num (r.now - r.launch.started)),
    ("manifest_path", .str cli.path),
    ("manifest_sha256", .str cli.sha256),
    ("bridge_manifest_path", .str bridge.path),
    ("bridge_manifest_sha256", .str bridge.sha256)]

/-- The call `writeBridgeManifest(config.manifestDir, data)`; `path.isAbsolute`
throws on a directory that is not a string. -/
def writeConfigured (P : Platform) (cfg : Config) (fs : FS) (now : Int) (data : JsVal) :
    Option (ManifestRef × FS) :=
  match cfg.manifestDir with
  | .str dir => writeBridgeManifest P fs now dir data
  | _ => none

/-- The end of a handler of `error` or `close` on the state `r1`, which writes
the record `data` and answers with `status` and the body made from the
reference of the manifest.  A `writeBridgeManifest` that throws, and a
`res.status(..).json(..)` after the request was answered (it throws, the
headers being sent), leave the handler as an uncaught exception. -/
def Run.finish (P : Platform) (cfg : Config) (r1 : Run) (data : JsVal) (status : Nat)
    (body : ManifestRef → JsVal) : Run :=
  match writeConfigured P cfg r1.fs r1.now data with
  | none => { r1 with crashed := true }
  | some (bridge, fs') =>
    if r1.responses.isEmpty then
      { r1 with
        fs := fs'
        manifests := r1.manifests ++ [(data, bridge)]
        responses := r1.responses ++ [(status, body bridge)] }
    else
      { r1 with
        fs := fs'
        manifests := r1.manifests ++ [(data, bridge)]
        crashed := true }

/-- One event of a run whose server process is running.  The result is `none`
when the event cannot happen in the state: a timer that is not pending or not
yet due, an exit of a child without a handle. -/
def dispatch (P : Platform) (cfg : Config) (r : Run) : Event → Option Run
  | .tick dt => some { r with now := r.now + dt }
  | .world fs => some { r with fs := fs }
  | .stdoutData d => some { r with stdout := r.stdout ++ d }
  | .stderrData d => some { r with stderr := r.stderr ++ d }
  | .deadline =>
    match r.killer with
    | none => none
    | some due =>
      if due ≤ r.now then
        let r1 := { r with killer := none, killedByTimeout := true }
        let r2 := r1.kill .SIGTERM
        some { r2 with grace := r2.grace ++ [r2.now + 5000] }
      else none
  | .graceExpired =>
    match r.grace with
    | [] => none
    | due :: rest =>
      if due ≤ r.now then some { (r.kill .SIGKILL) with grace := rest }
      else none
  | .childExit =>
    if r.childAlive then some { r with childAlive := false } else none
  | .childError e =>
    let r1 := { r with killer := none, childAlive := false }
    some (r1.finish P cfg (errorManifestData P r1 e) 500 (errorResponse r1 e))
  | .childClose rc =>
    let r1 := { r with killer := none, childAlive := false }
    let cli := findLatestCliManifest P r1.fs r1.launch.workdir
    some (r1.finish P cfg (closeManifestData P r1 rc cli) 200 (closeResponse P r1 rc cli))

/-- One event of a run; no event happens once the server process has ended. -/
def step (P : Platform) (cfg : Config) (r : Run) (e : Event) : Option Run :=
  if r.crashed then none else dispatch P cfg r e

/-- A sequence of events of a run, in order. -/
def runTrace (P : Platform) (cfg : Config) (r : Run) : List Event → Option Run
  | [] => some r
  | e :: es =>
    match step P cfg r e with
    | none => none
    | some r' => runTrace P cfg r' es

/-- What one request leaves behind. -/
structure Served where
  /-- what `spawn` was called with, when it was called -/
  spawned : Option Launch
  /-- the calls `res.status(s).json(body)`, oldest first -/
  responses : List (Nat × JsVal)
  /-- the bridge manifests written -/
  manifests : List (JsVal × ManifestRef)
  /-- the file system afterwards -/
  fs : FS

/-- One request from its arrival to the end of the events `evs` of its child.
A request answered before `spawn` has no child and no event, and neither has
a request whose handler throws, which gets no response; `none` when an event
cannot happen. -/
def serve (P : Platform) (cfg : Config) (fs : FS) (now : Int) (body : JsVal)
    (evs : List Event) : Option Served :=
  match handleRun P cfg fs now body with
  | .responded status b =>
    some { spawned := none, responses := [(status, b)], manifests := [], fs := fs }
  | .threw _ => some { spawned := none, responses := [], manifests := [], fs := fs }
  | .spawned l =>
    match l.thrown with
    | some _ => some { spawned := some l, responses := [], manifests := [], fs := fs }
    | none =>
      match runTrace P cfg (Run.start l fs) evs with
      | none => none
      | some r =>
        some { spawned := some l, responses := r.responses, manifests := r.manifests,
               fs := r.fs }

/-- The prompt is missing, is not a string, or is a string of white space
only (the empty string included). -/
def PromptBlank (v : JsVal) : Prop :=
  ∀ s, v = .str s → ∀ c ∈ s.data, isJsWhitespace c = true

/-! ## Fixtures for the concrete instances -/

/-- A platform for the concrete instances: the digest is the length of the
buffer in decimal, the text of a record is the list of its keys. -/
def demoPlatform : Platform where
  sha256Hex := fun b => toString b.length
  jsonStringify := fun v =>
    match v with
    | .obj fields => ",".intercalate (fields.map Prod.fst)
    | _ => "null"
  jsonParse := fun _ => none
  utf8 := fun s => s.data.map Char.toNat
  pathJoin := fun xs => "/".intercalate xs
  pathIsAbsolute := fun s => jsStartsWith s "/"
  stringToNumber := fun _ => .nan
  numberToString := fun _ => "1e+21"
  roundToNumber := fun n => some n
  spawnError := fun _ => none
  rootDir := "/srv/bridge"
  processCwd := "/home/dev"
  hostname := "host"
  username := "dev"
  pid := 4242

/-- A file system for the concrete instances: `/work` exists and is empty,
every file can be written. -/
def demoFs : FS where
  readdir := fun p => if p = "/work" then some [] else none
  mtimeMs := fun _ => none
  readFile := fun _ => none
  pathExists := fun p => p = "/work"
  writable := fun _ => true

/-- A configuration for the concrete instances. -/
def demoConfig : Config where
  bind := "127.0.0.1"
  port := .int 7777
  defaultCwd := .str "/work"
  defaultTimeoutMs := .int 600000
  allowAllTools := false
  allowTools := defaultAllowTools
  denyTools := defaultDenyTools
  manifestDir := .str "/var/manifests"
  logDir := .str "/var/logs"

/-! ## The precedence of the settings, as specified -/

/-- The first of the environment value, the config-file value and the default
that is truthy: an unset or empty variable and a falsy file value are passed
over. -/
def firstTruthy (envVal fileVal dflt : JsVal) : JsVal :=
  if envVal.truthy then envVal else if fileVal.truthy then fileVal else dflt

/-- A value that is falsy or an array. -/
def ArrayOrFalsy (v : JsVal) : Prop := v.truthy = false ∨ ∃ xs, v = .arr xs

/-- The comma-separated text of a tool-list setting: the environment variable
when it is set and not empty, otherwise the elements of the array of the
config file joined by commas when the file has one, otherwise the default
list joined by commas. -/
def toolListText (P : Platform) (envVal fileVal : JsVal) (dflt : List String) : String :=
  if envVal.truthy then jsToString P envVal
  else if fileVal.truthy then jsToString P fileVal
  else jsJoinElems P (dflt.map .str)

/-- An environment for the concrete instances, from a list of bindings. -/
def demoEnv (vars : List (String × String)) : String → Option String :=
  fun name => vars.lookup name

/-- A file system for the concrete instances in which `/work` holds two
manifests of the CLI, the second one newer, and a file of another name. -/
def demoFsManifests : FS where
  readdir := fun p =>
    if p = "/work" then
      some [".copilot.manifest.1.json", "notes.txt", ".copilot.manifest.2.json"]
    else none
  mtimeMs := fun p =>
    if p = "/work/.copilot.manifest.1.json" then some 1000
    else if p = "/work/.copilot.manifest.2.json" then some 2000
    else if p = "/work/notes.txt" then some 3000
    else none
  readFile := fun p =>
    if p = "/work/.copilot.manifest.1.json" then some [123, 125]
    else if p = "/work/.copilot.manifest.2.json" then some [123, 32, 125]
    else if p = "/work/notes.txt" then some [104, 105]
    else none
  pathExists := fun p => p = "/work"
  writable := fun _ => true

/-- A file system for the concrete instances in which the only entry of `/work`
with the name of a CLI manifest is a directory: it is listed and has a
modification time, and reading it as a file throws. -/
def demoFsDirectoryEntry : FS where
  readdir := fun p => if p = "/work" then some [".copilot.manifest.d.json"] else none
  mtimeMs := fun p => if p = "/work/.copilot.manifest.d.json" then some 1000 else none
  readFile := fun _ => none
  pathExists := fun p => p = "/work" || p = "/work/.copilot.manifest.d.json"
  writable := fun _ => true

/-- The UTC year of a time value. -/
def isoYear (t : Int) : Int := (civilFromDays (t / 86400000)).1

/-- The characters of a manifest time stamp with a four-digit year, from the
fields of the date and time. -/
def stampChars (y m d hh mm ss ms : Nat) : List Char :=
  pad4 y ++ ['-'] ++ pad2 m ++ ['-'] ++ pad2 d ++ ['T'] ++ pad2 hh ++ ['-'] ++ pad2 mm ++
    ['-'] ++ pad2 ss ++ ['-'] ++ pad3 ms ++ ['Z']

/-! ## The phases of the timeout -/

/-- The run is in the phase RUNNING: the timer `killer` is pending, due
`Math.max(1, timeoutMs)` after the start as `setTimeout` reads that delay; no
signal was sent, no inner timer is pending, and the request is not answered. -/
def Run.Running (r : Run) : Prop :=
  r.killer = some (r.launch.started + timerDelay r.launch.delay) ∧
    r.killedByTimeout = false ∧ r.killCalls = [] ∧ r.signals = [] ∧ r.grace = [] ∧
    r.responses = [] ∧ r.manifests = [] ∧ r.crashed = false

/-- The run is in the phase GRACE: the deadline callback ran at time `t`, when
the child had its handle; SIGTERM was sent then, and the inner timer is
pending, due 5000 ms later. -/
def Run.Grace (r : Run) (t : Int) : Prop :=
  r.killedByTimeout = true ∧ r.killer = none ∧
    r.killCalls = [(t, .SIGTERM)] ∧ r.signals = [(t, .SIGTERM)] ∧ r.grace = [t + 5000]

/-! # Theorems -/

/-! ## Splitting and trimming -/

theorem splitChars_ne_nil (sep : Char) (cs : List Char) : splitChars sep cs ≠ [] := by
  induction cs with
  | nil => simp [splitChars]
  | cons c cs ih =>
    unfold splitChars
    split
    · simp
    · split <;> simp

theorem splitChars_intercalate (sep : Char) (cs : List Char) :
    [sep].intercalate (splitChars sep cs) = cs := by
  induction cs with
  | nil => simp [splitChars, List.intercalate]
  | cons c cs ih =>
    unfold splitChars
    split
    · rename_i h
      subst h
      cases hs : splitChars c cs with
      | nil => exact absurd hs (splitChars_ne_nil _ _)
      | cons p ps =>
        rw [hs] at ih
        simp only [List.intercalate] at ih ⊢
        simp only [List.intersperse, List.flatten_cons, List.nil_append]
        cases ps with
        | nil => simpa using ih
        | cons q qs => simpa using ih
    · cases hs : splitChars sep cs with
      | nil => exact absurd hs (splitChars_ne_nil _ _)
      | cons p ps =>
        rw [hs] at ih
        simp only [List.intercalate] at ih ⊢
        cases ps with
        | nil => simpa using ih
        | cons q qs => simpa using ih

theorem splitChars_no_sep (sep : Char) (cs : List Char) :
    ∀ p ∈ splitChars sep cs, sep ∉ p := by
  induction cs with
  | nil => simp [splitChars]
  | cons c cs ih =>
    unfold splitChars
    split
    · intro p hp
      rcases List.mem_cons.1 hp with h | h
      · simp [h]
      · exact ih p h
    · rename_i hne
      cases hs : splitChars sep cs with
      | nil => exact absurd hs (splitChars_ne_nil _ _)
      | cons q qs =>
        rw [hs] at ih
        intro p hp
        rcases List.mem_cons.1 hp with h | h
        · subst h
          intro hmem
          rcases List.mem_cons.1 hmem with h1 | h1
          · exact hne h1.symm
          · exact ih q (List.mem_cons_self _ _) h1
        · exact ih p (List.mem_cons_of_mem _ h)

theorem trimStartChars_spec (cs : List Char) :
    ∃ l, cs = l ++ trimStartChars cs ∧ (∀ c ∈ l, isJsWhitespace c = true) ∧
      (∀ c, (trimStartChars cs).head? = some c → isJsWhitespace c = false) := by
  induction cs with
  | nil => exact ⟨[], by simp [trimStartChars]⟩
  | cons c cs ih =>
    unfold trimStartChars
    by_cases hc : isJsWhitespace c = true
    · obtain ⟨l, h1, h2, h3⟩ := ih
      refine ⟨c :: l, ?_, ?_, ?_⟩
      · simp only [hc, if_true, List.cons_append]; rw [← h1]
      · intro d hd
        rcases List.mem_cons.1 hd with h | h
        · rw [h]; exact hc
        · exact h2 d h
      · simpa [hc] using h3
    · refine ⟨[], ?_, ?_, ?_⟩
      · simp [hc]
      · simp
      · intro d hd
        simp only [hc] at hd
        simp at hd
        subst hd
        simpa using hc

theorem trimEndChars_spec (cs : List Char) :
    ∃ r, cs = trimEndChars cs ++ r ∧ (∀ c ∈ r, isJsWhitespace c = true) ∧
      (∀ c, (trimEndChars cs).getLast? = some c → isJsWhitespace c = false) := by
  obtain ⟨l, h1, h2, h3⟩ := trimStartChars_spec cs.reverse
  refine ⟨l.reverse, ?_, ?_, ?_⟩
  · have := congrArg List.reverse h1
    simpa [trimEndChars] using this
  · intro c hc
    exact h2 c (List.mem_reverse.1 hc)
  · intro c hc
    apply h3
    simpa [trimEndChars, List.getLast?_reverse] using hc

theorem trimChars_isTrimOf (p : List Char) : IsTrimOf (trimChars p) p := by
  obtain ⟨l, h1, h2, h3⟩ := trimStartChars_spec p
  obtain ⟨r, k1, k2, k3⟩ := trimEndChars_spec (trimStartChars p)
  refine ⟨l, r, ?_, h2, k2, ?_, k3⟩
  · unfold trimChars
    rw [List.append_assoc, ← k1, ← h1]
  · intro c hc
    apply h3
    unfold trimChars at hc
    rw [k1]
    cases hte : trimEndChars (trimStartChars p) with
    | nil => rw [hte] at hc; simp at hc
    | cons a as => rw [hte] at hc; simpa using hc

theorem mem_of_mem_trimChars {c : Char} {p : List Char} (h : c ∈ trimChars p) : c ∈ p := by
  obtain ⟨l, r, hp, _⟩ := trimChars_isTrimOf p
  rw [hp]
  simp [h]

theorem map_data_filter_trim (L : List (List Char)) :
    (((L.map String.mk).map jsTrim).filter (fun t => t.data != [])).map String.data =
      (L.map trimChars).filter (fun t => t != []) := by
  induction L with
  | nil => rfl
  | cons p ps ih =>
    simp only [List.map_cons, List.filter_cons]
    have hd : (jsTrim (String.mk p)).data = trimChars p := rfl
    rw [hd]
    by_cases h : (trimChars p != []) = true
    · simp only [h, if_true, List.map_cons, hd, ih]
    · rw [if_neg h, if_neg h]
      exact ih

theorem parseToolList_data (s : String) :
    (parseToolList s).map String.data =
      ((splitChars ',' s.data).map trimChars).filter (fun t => t != []) :=
  map_data_filter_trim (splitChars ',' s.data)

/-- C10: the tool list parsed from a string `s` is made of the comma-separated
pieces of `s` (the pieces hold no comma and, joined by commas, give back `s`),
each trimmed of its surrounding white space, the pieces that are empty after
trimming removed and the order kept; so no element of the list is empty,
starts or ends with white space, or contains a comma. -/
theorem parseToolList_spec (s : String) :
    ∃ pieces : List (List Char),
      [','].intercalate pieces = s.data ∧
      (∀ p ∈ pieces, ',' ∉ p) ∧
      (parseToolList s).map String.data =
        (pieces.map trimChars).filter (fun t => t != []) ∧
      (∀ p ∈ pieces, IsTrimOf (trimChars p) p) ∧
      ∀ t ∈ parseToolList s, t.data ≠ [] ∧
        (∀ c, t.data.head? = some c → isJsWhitespace c = false) ∧
        (∀ c, t.data.getLast? = some c → isJsWhitespace c = false) ∧
        ',' ∉ t.data := by
  refine ⟨splitChars ',' s.data, splitChars_intercalate _ _, splitChars_no_sep _ _,
    parseToolList_data s, fun p _ => trimChars_isTrimOf p, ?_⟩
  intro t ht
  have hmem : t.data ∈ (parseToolList s).map String.data := List.mem_map_of_mem _ ht
  rw [parseToolList_data] at hmem
  obtain ⟨hin, hne⟩ := List.mem_filter.1 hmem
  obtain ⟨p, hp, hpt⟩ := List.mem_map.1 hin
  obtain ⟨_, _, _, _, _, hhead, hlast⟩ := trimChars_isTrimOf p
  rw [hpt] at hhead hlast
  refine ⟨by simpa using hne, hhead, hlast, ?_⟩
  intro hc
  rw [← hpt] at hc
  exact splitChars_no_sep _ _ p hp (mem_of_mem_trimChars hc)

/-! ## The handler: validation and arguments -/

theorem trimStartChars_of_all_ws (cs : List Char)
    (h : ∀ c ∈ cs, isJsWhitespace c = true) : trimStartChars cs = [] := by
  induction cs with
  | nil => rfl
  | cons c cs ih =>
    unfold trimStartChars
    rw [if_pos (h c (List.mem_cons_self _ _))]
    exact ih (fun d hd => h d (List.mem_cons_of_mem _ hd))

theorem trimChars_of_all_ws (cs : List Char)
    (h : ∀ c ∈ cs, isJsWhitespace c = true) : trimChars cs = [] := by
  unfold trimChars
  rw [trimStartChars_of_all_ws cs h]
  rfl

theorem promptRejected_of_blank (v : JsVal) (h : PromptBlank v) : promptRejected v = true := by
  cases v with
  | str s =>
    have ht : trimChars s.data = [] := trimChars_of_all_ws s.data (h s rfl)
    simp [promptRejected, jsTrim, ht]
  | _ => simp [promptRejected, JsVal.truthy, JsVal.isString]

theorem existingPath_eq_none (fs : FS) (v : JsVal) (h : fs.existsSync v = false) :
    existingPath fs v = none := by
  cases v with
  | str p =>
    simp only [FS.existsSync] at h
    simp [existingPath, h]
  | _ => rfl

/-- C2, as amended: when the prompt of the request body is missing, is not a
string or is empty or made of white space only, or when the working directory
(the `cwd` of the request, else the configured default) does not exist and its
conversion to a string for the error text does not throw, the request is
answered once, with status 400 and a body `{ ok: false, error }`; nothing is
spawned, no manifest is written and the file system is left as it was. -/
theorem run_rejects_invalid (P : Platform) (cfg : Config) (fs : FS) (now : Int)
    (body : JsVal) (evs : List Event)
    (h : PromptBlank ((body.or (.obj [])).getProp "prompt") ∨
      (fs.existsSync (orDefault ((body.or (.obj [])).getProp "cwd") cfg.defaultCwd) = false ∧
        convertThrows (orDefault ((body.or (.obj [])).getProp "cwd") cfg.defaultCwd) = false)) :
    ∃ err : String,
      serve P cfg fs now body evs =
        some { spawned := none
               responses := [(400, .obj [("ok", .bool false), ("error", .str err)])]
               manifests := []
               fs := fs } := by
  unfold serve handleRun
  by_cases hp : promptRejected (destructureBody cfg body).prompt = true
  · exact ⟨"prompt is required", by simp only [hp, if_true]⟩
  · rcases h with h | h
    · exact absurd (promptRejected_of_blank _ h) hp
    · have hc : existingPath fs (destructureBody cfg body).cwd = none :=
        existingPath_eq_none fs _ h.1
      have hs : stringOf P (destructureBody cfg body).cwd =
          .ok (jsToString P (destructureBody cfg body).cwd) := by
        have h2 : convertThrows (destructureBody cfg body).cwd = false := h.2
        simp [stringOf, h2]
      exact ⟨"cwd does not exist: " ++ jsToString P (destructureBody cfg body).cwd, by
        simp only [hp, hc, hs]
        rfl⟩

/-- Witness of C2 as amended: a prompt of white space, and a working directory
that does not exist. -/
theorem run_rejects_invalid_witness :
    (∃ err : String,
      serve demoPlatform demoConfig demoFs 0 (.obj [("prompt", .str " \t ")])
          [.tick 5, .childClose (some 0)] =
        some { spawned := none
               responses := [(400, .obj [("ok", .bool false), ("error", .str err)])]
               manifests := []
               fs := demoFs }) ∧
    (∃ err : String,
      serve demoPlatform demoConfig demoFs 0
          (.obj [("prompt", .str "list files"), ("cwd", .str "/nowhere")]) [] =
        some { spawned := none
               responses := [(400, .obj [("ok", .bool false), ("error", .str err)])]
               manifests := []
               fs := demoFs }) :=
  ⟨run_rejects_invalid demoPlatform demoConfig demoFs 0 (.obj [("prompt", .str " \t ")])
      [.tick 5, .childClose (some 0)]
      (Or.inl (by
        intro s hs
        have hs' : s = " \t " := by
          simp [JsVal.or, JsVal.truthy, JsVal.getProp, List.lookup] at hs
          exact hs.symm
        subst hs'
        decide)),
   run_rejects_invalid demoPlatform demoConfig demoFs 0
      (.obj [("prompt", .str "list files"), ("cwd", .str "/nowhere")]) []
      (Or.inr ⟨by decide, rfl⟩)⟩

/-- Counterexample to C2 as stated: the `cwd` of the body is the object
`{"toString": 1}`.  The prompt is accepted, `fs.existsSync` is false for the
object, and the template literal of the error text throws a `TypeError` on it:
the request gets no response, with status 400 or any other. -/
theorem run_rejects_invalid_counterexample :
    promptRejected (.str "list files") = false ∧
    demoFs.existsSync (.obj [("toString", .num 1)]) = false ∧
    handleRun demoPlatform demoConfig demoFs 0
      (.obj [("prompt", .str "list files"), ("cwd", .obj [("toString", .num 1)])]) =
      .threw conversionError ∧
    serve demoPlatform demoConfig demoFs 0
      (.obj [("prompt", .str "list files"), ("cwd", .obj [("toString", .num 1)])]) [] =
      some { spawned := none, responses := [], manifests := [], fs := demoFs } :=
  ⟨rfl, rfl, rfl, rfl⟩

theorem foldl_push_pair (flag : JsVal) (xs : List JsVal) (init : List JsVal) :
    xs.foldl (fun acc t => acc ++ [flag, t]) init =
      init ++ xs.flatMap (fun t => [flag, t]) := by
  induction xs generalizing init with
  | nil => simp
  | cons x xs ih => simp [List.foldl_cons, ih, List.flatMap_cons]

/-- C1: for a request that passes validation with a string prompt `p`, an
`allowAllTools` flag and lists `allowTools`, `denyTools` (from the body or the
defaults), `spawn` is called with `copilot` and the arguments `-p`, `p`
followed by the single `--allow-all-tools` when the flag is truthy, and
otherwise by one `--allow-tool`, `t` pair for each allowed `t` in order, then
one `--deny-tool`, `t` pair for each denied `t` in order. -/
theorem run_args (P : Platform) (cfg : Config) (fs : FS) (now : Int) (body : JsVal)
    (p : String) (allowed denied : List JsVal)
    (hp : (destructureBody cfg body).prompt = .str p)
    (hvalid : promptRejected (.str p) = false)
    (hcwd : fs.existsSync (destructureBody cfg body).cwd = true)
    (ha : (destructureBody cfg body).allowTools = .arr allowed)
    (hd : (destructureBody cfg body).denyTools = .arr denied) :
    ∃ l : Launch, handleRun P cfg fs now body = .spawned l ∧ l.cmd = "copilot" ∧
      l.args = [.str "-p", .str p] ++
        (if (destructureBody cfg body).allowAllTools.truthy then [.str "--allow-all-tools"]
         else allowed.flatMap (fun t => [.str "--allow-tool", t]) ++
           denied.flatMap (fun t => [.str "--deny-tool", t])) := by
  obtain ⟨w, hw⟩ : ∃ w, existingPath fs (destructureBody cfg body).cwd = some w := by
    cases hc : (destructureBody cfg body).cwd with
    | str q =>
      rw [hc] at hcwd
      simp only [FS.existsSync] at hcwd
      exact ⟨q, by simp [existingPath, hcwd]⟩
    | _ => rw [hc] at hcwd; simp [FS.existsSync] at hcwd
  have hrej : promptRejected (destructureBody cfg body).prompt = false := by rw [hp]; exact hvalid
  by_cases hall : (destructureBody cfg body).allowAllTools.truthy = true
  · have hb : buildArgs (destructureBody cfg body) =
        .ok ([.str "-p", .str p] ++ [.str "--allow-all-tools"]) := by
      simp [buildArgs, hall, hp]
    refine ⟨_, by simp only [handleRun, hrej, hw, hb]; rfl, rfl, ?_⟩
    simp [hall]
  · have hb : buildArgs (destructureBody cfg body) =
        .ok ([.str "-p", .str p] ++ (allowed.flatMap (fun t => [.str "--allow-tool", t]) ++
          denied.flatMap (fun t => [.str "--deny-tool", t]))) := by
      have hall' : (destructureBody cfg body).allowAllTools.truthy = false := by
        simpa using hall
      unfold buildArgs
      rw [hall', ha, hd, hp]
      simp [iterate, JsVal.or, JsVal.truthy, foldl_push_pair, bind, Except.bind, pure,
        Except.pure]
    refine ⟨_, by simp only [handleRun, hrej, hw, hb]; rfl, rfl, ?_⟩
    simp [hall]

/-- Witness of C1: the explicit policy allowed `git`, denied `shell(rm)`, and
the same request with `allowAllTools: true`. -/
theorem run_args_witness :
    (∃ l : Launch,
      handleRun demoPlatform demoConfig demoFs 0
        (.obj [("prompt", .str "list files"), ("allowTools", .arr [.str "git"]),
          ("denyTools", .arr [.str "shell(rm)"])]) = .spawned l ∧ l.cmd = "copilot" ∧
      l.args = [.str "-p", .str "list files", .str "--allow-tool", .str "git",
        .str "--deny-tool", .str "shell(rm)"]) ∧
    (∃ l : Launch,
      handleRun demoPlatform demoConfig demoFs 0
        (.obj [("prompt", .str "list files"), ("allowAllTools", .bool true),
          ("allowTools", .arr [.str "git"]), ("denyTools", .arr [.str "shell(rm)"])]) =
        .spawned l ∧ l.cmd = "copilot" ∧
      l.args = [.str "-p", .str "list files", .str "--allow-all-tools"]) :=
  ⟨run_args demoPlatform demoConfig demoFs 0
      (.obj [("prompt", .str "list files"), ("allowTools", .arr [.str "git"]),
        ("denyTools", .arr [.str "shell(rm)"])])
      "list files" [.str "git"] [.str "shell(rm)"] rfl (by decide) (by decide) rfl rfl,
   run_args demoPlatform demoConfig demoFs 0
      (.obj [("prompt", .str "list files"), ("allowAllTools", .bool true),
        ("allowTools", .arr [.str "git"]), ("denyTools", .arr [.str "shell(rm)"])])
      "list files" [.str "git"] [.str "shell(rm)"] rfl (by decide) (by decide) rfl rfl⟩

/-! ## The bridge manifest -/

theorem writeFile_readFile (fs fs' : FS) (p : String) (buf : List Nat) (now : Int)
    (h : fs.writeFile p buf now = some fs') : fs'.readFile p = some buf := by
  unfold FS.writeFile at h
  split at h
  · injection h with h
    subst h
    simp
  · exact absurd h (by simp)

theorem writeBridgeManifest_obj (P : Platform) (fs : FS) (now : Int) (dir : String)
    (fields : List (String × JsVal))
    (hdir : fs.writable (bridgeManifestPath P now dir) = true) :
    ∃ fs' : FS,
      writeBridgeManifest P fs now dir (.obj fields) =
        some ({ path := bridgeManifestPath P now dir,
                sha256 := hashSha256 P (P.utf8 (P.jsonStringify (.obj fields))) }, fs') ∧
      fs.writeFile (bridgeManifestPath P now dir) (P.utf8 (P.jsonStringify (.obj fields))) now =
        some fs' := by
  cases hw : fs.writeFile (bridgeManifestPath P now dir)
      (P.utf8 (P.jsonStringify (.obj fields))) now with
  | none => simp [FS.writeFile, hdir] at hw
  | some fs' => exact ⟨fs', by simp [writeBridgeManifest, hw], rfl⟩

/-- C3: for a directory `dir` in which the manifest file can be written and a
record `data`, `writeBridgeManifest(dir, data)` returns `{ path, sha256 }`;
the file at `path` then holds the UTF-8 bytes of `JSON.stringify(data, null, 2)`
and `sha256` is `hashSha256` of these bytes, so hashing what is read back from
`path` gives the returned digest. -/
theorem writeBridgeManifest_digest (P : Platform) (fs : FS) (now : Int) (dir : String)
    (fields : List (String × JsVal))
    (hdir : fs.writable (bridgeManifestPath P now dir) = true) :
    ∃ (ref : ManifestRef) (fs' : FS),
      writeBridgeManifest P fs now dir (.obj fields) = some (ref, fs') ∧
      fs'.readFile ref.path = some (P.utf8 (P.jsonStringify (.obj fields))) ∧
      ref.sha256 = hashSha256 P (P.utf8 (P.jsonStringify (.obj fields))) ∧
      ∀ buf, fs'.readFile ref.path = some buf → hashSha256 P buf = ref.sha256 := by
  obtain ⟨fs', hres, hw⟩ := writeBridgeManifest_obj P fs now dir fields hdir
  have hread := writeFile_readFile fs fs' _ _ now hw
  refine ⟨_, fs', hres, hread, rfl, ?_⟩
  intro buf hbuf
  rw [hread] at hbuf
  injection hbuf with hbuf
  rw [← hbuf]

/-- Witness of C3: a record written under `/var/manifests` at time 0. -/
theorem writeBridgeManifest_digest_witness :
    demoFs.writable (bridgeManifestPath demoPlatform 0 "/var/manifests") = true ∧
    ∃ (ref : ManifestRef) (fs' : FS),
      writeBridgeManifest demoPlatform demoFs 0 "/var/manifests"
        (.obj [("version", .num 1)]) = some (ref, fs') ∧
      fs'.readFile ref.path =
        some (demoPlatform.utf8 (demoPlatform.jsonStringify (.obj [("version", .num 1)]))) ∧
      ref.sha256 = hashSha256 demoPlatform
        (demoPlatform.utf8 (demoPlatform.jsonStringify (.obj [("version", .num 1)]))) ∧
      ∀ buf, fs'.readFile ref.path = some buf → hashSha256 demoPlatform buf = ref.sha256 :=
  ⟨by decide,
   writeBridgeManifest_digest demoPlatform demoFs 0 "/var/manifests" [("version", .num 1)]
     (by decide)⟩

/-! ## Configuration -/

theorem envFileDefault_obj (env : String → Option String) (fields : List (String × JsVal))
    (name key : String) (dflt : JsVal) :
    envFileDefault env (.obj fields) name key dflt =
      .ok (firstTruthy (envGet env name) ((JsVal.obj fields).getProp key) dflt) := by
  unfold envFileDefault firstTruthy
  by_cases h : (envGet env name).truthy = true
  · simp [h]
  · simp only [h, readProp, JsVal.or]
    rfl

theorem convertThrows_strs (xs : List String) :
    convertThrows (.arr (xs.map .str)) = false := by
  have h : convertThrowsAny (xs.map .str) = false := by
    induction xs with
    | nil => simp [convertThrowsAny]
    | cons x xs ih => simp [convertThrowsAny, convertThrows, ih]
  simpa [convertThrows] using h

theorem toolListSetting_obj (P : Platform) (env : String → Option String) (fields : List (String × JsVal))
    (name key : String) (dflt : List String)
    (h : ArrayOrFalsy ((JsVal.obj fields).getProp key))
    (hconv : convertThrows ((JsVal.obj fields).getProp key) = false) :
    toolListSetting P env (.obj fields) name key dflt =
      .ok (parseToolList
        (toolListText P (envGet env name) ((JsVal.obj fields).getProp key) dflt)) := by
  unfold toolListSetting toolListText
  by_cases he : (envGet env name).truthy = true
  · simp [he]
  · have he' : (envGet env name).truthy = false := by simpa using he
    rw [he']
    rcases h with h | ⟨xs, h⟩
    · simp [readProp, bind, Except.bind, pure, Except.pure, JsVal.or, h, arrayJoin, stringOf,
        convertThrows_strs, jsToString]
    · rw [h] at hconv
      simp [readProp, bind, Except.bind, pure, Except.pure, JsVal.or, h, arrayJoin,
        JsVal.truthy, jsToString, stringOf, hconv]

theorem textSetting_obj (P : Platform) (env : String → Option String) (fields : List (String × JsVal))
    (name key : String) (dflt : JsVal)
    (hconv : convertThrows
      (firstTruthy (envGet env name) ((JsVal.obj fields).getProp key) dflt) = false) :
    textSetting P env (.obj fields) name key dflt =
      .ok (jsToString P (firstTruthy (envGet env name) ((JsVal.obj fields).getProp key) dflt)) := by
  unfold textSetting
  unfold firstTruthy at hconv ⊢
  by_cases h : (envGet env name).truthy = true
  · simp [h, pure, Except.pure]
  · have h' : (envGet env name).truthy = false := by simpa using h
    rw [h'] at hconv ⊢
    simp only [readProp, JsVal.or, bind, Except.bind, pure, Except.pure, stringOf]
    by_cases hf : ((JsVal.obj fields).getProp key).truthy = true
    · simp [hf] at hconv ⊢
      simp [hconv]
    · simp [hf] at hconv ⊢
      simp [hconv]

theorem readJSON_fallback (P : Platform) (fs : FS) (p : String) (fallback : JsVal)
    (h : fs.readFile p = none ∨ ∃ bytes, fs.readFile p = some bytes ∧ P.jsonParse bytes = none) :
    readJSON P fs p fallback = fallback := by
  unfold readJSON
  rcases h with h | ⟨bytes, h1, h2⟩
  · rw [h]
  · rw [h1]
    simp only [h2]

/-- C9, as amended: for every environment and every config file that is a JSON
object whose `allowTools` and `denyTools` are arrays when they are truthy, and
in which the conversion to a string of these arrays and of the values chosen
for the timeout and the flag does not throw, the start-up builds a config in
which the bind address and the port come from their environment variable when
it is set and not empty and otherwise from the hard-coded default (the config
file is not read for them), and every other setting comes from its environment
variable when it is set and not empty, otherwise from its key of the config
file when that value is truthy, otherwise from the hard-coded default; the
port and the timeout are read by `parseInt(text, 10)`, the flag is true when
the text is `true` in any case, the lists are parsed from the comma-separated
text.  A config file that is missing or is not JSON behaves as the empty
object. -/
theorem config_precedence (P : Platform) (env : String → Option String)
    (fields : List (String × JsVal))
    (ha : ArrayOrFalsy ((JsVal.obj fields).getProp "allowTools"))
    (hd : ArrayOrFalsy ((JsVal.obj fields).getProp "denyTools"))
    (hca : convertThrows ((JsVal.obj fields).getProp "allowTools") = false)
    (hcd : convertThrows ((JsVal.obj fields).getProp "denyTools") = false)
    (hct : convertThrows (firstTruthy (envGet env "DEFAULT_TIMEOUT_MS")
      ((JsVal.obj fields).getProp "defaultTimeoutMs") (.num 600000)) = false)
    (hcf : convertThrows (firstTruthy (envGet env "ALLOW_ALL_TOOLS")
      ((JsVal.obj fields).getProp "allowAllTools") (.bool false)) = false) :
    (∃ c : Config, resolveConfig P env (.obj fields) = .ok c ∧
      c.bind = jsToString P (firstTruthy (envGet env "BRIDGE_BIND") .undefined (.str "127.0.0.1")) ∧
      c.port = parseInt10 P
        (jsToString P (firstTruthy (envGet env "BRIDGE_PORT") .undefined (.str "7777"))) ∧
      c.defaultCwd = firstTruthy (envGet env "DEFAULT_CWD")
        ((JsVal.obj fields).getProp "defaultCwd") (.str P.processCwd) ∧
      c.defaultTimeoutMs = parseInt10 P (jsToString P (firstTruthy (envGet env "DEFAULT_TIMEOUT_MS")
        ((JsVal.obj fields).getProp "defaultTimeoutMs") (.num 600000))) ∧
      c.allowAllTools = (jsToLowerCase (jsToString P (firstTruthy (envGet env "ALLOW_ALL_TOOLS")
        ((JsVal.obj fields).getProp "allowAllTools") (.bool false))) == "true") ∧
      c.allowTools = parseToolList (toolListText P (envGet env "DEFAULT_ALLOW_TOOLS")
        ((JsVal.obj fields).getProp "allowTools") defaultAllowTools) ∧
      c.denyTools = parseToolList (toolListText P (envGet env "DEFAULT_DENY_TOOLS")
        ((JsVal.obj fields).getProp "denyTools") defaultDenyTools) ∧
      c.manifestDir = firstTruthy (envGet env "MANIFEST_DIR")
        ((JsVal.obj fields).getProp "manifestDir")
        (.str (P.pathJoin [P.rootDir, "var", "manifests"])) ∧
      c.logDir = firstTruthy (envGet env "LOG_DIR")
        ((JsVal.obj fields).getProp "logDir")
        (.str (P.pathJoin [P.rootDir, "var", "logs"]))) ∧
    ∀ fs : FS,
      (fs.readFile (P.pathJoin [P.rootDir, "config", "bridge.config.json"]) = none ∨
        ∃ bytes, fs.readFile (P.pathJoin [P.rootDir, "config", "bridge.config.json"]) =
          some bytes ∧ P.jsonParse bytes = none) →
      loadConfig P env fs = resolveConfig P env (.obj []) := by
  constructor
  · refine ⟨{
        bind := jsToString P (firstTruthy (envGet env "BRIDGE_BIND") .undefined (.str "127.0.0.1"))
        port := parseInt10 P
          (jsToString P (firstTruthy (envGet env "BRIDGE_PORT") .undefined (.str "7777")))
        defaultCwd := firstTruthy (envGet env "DEFAULT_CWD")
          ((JsVal.obj fields).getProp "defaultCwd") (.str P.processCwd)
        defaultTimeoutMs := parseInt10 P (jsToString P (firstTruthy
          (envGet env "DEFAULT_TIMEOUT_MS")
          ((JsVal.obj fields).getProp "defaultTimeoutMs") (.num 600000)))
        allowAllTools := (jsToLowerCase (jsToString P (firstTruthy (envGet env "ALLOW_ALL_TOOLS")
          ((JsVal.obj fields).getProp "allowAllTools") (.bool false))) == "true")
        allowTools := parseToolList (toolListText P (envGet env "DEFAULT_ALLOW_TOOLS")
          ((JsVal.obj fields).getProp "allowTools") defaultAllowTools)
        denyTools := parseToolList (toolListText P (envGet env "DEFAULT_DENY_TOOLS")
          ((JsVal.obj fields).getProp "denyTools") defaultDenyTools)
        manifestDir := firstTruthy (envGet env "MANIFEST_DIR")
          ((JsVal.obj fields).getProp "manifestDir")
          (.str (P.pathJoin [P.rootDir, "var", "manifests"]))
        logDir := firstTruthy (envGet env "LOG_DIR")
          ((JsVal.obj fields).getProp "logDir")
          (.str (P.pathJoin [P.rootDir, "var", "logs"])) },
      ?_, rfl, rfl, rfl, rfl, rfl, rfl, rfl, rfl, rfl⟩
    unfold resolveConfig
    simp only [envFileDefault_obj, toolListSetting_obj P env fields _ _ _ ha hca,
      toolListSetting_obj P env fields _ _ _ hd hcd, textSetting_obj P env fields _ _ _ hct,
      textSetting_obj P env fields _ _ _ hcf, bind, Except.bind, pure, Except.pure]
    rfl
  · intro fs h
    unfold loadConfig
    rw [readJSON_fallback P fs _ _ h]

/-- Witness of C9 as amended: the port and one list from the environment, the
working directory and the other list from the config file, the rest from the
defaults. -/
theorem config_precedence_witness :
    ∃ c : Config,
      resolveConfig demoPlatform
        (demoEnv [("BRIDGE_PORT", "8080"), ("DEFAULT_ALLOW_TOOLS", "git, gh")])
        (.obj [("defaultCwd", .str "/srv/work"), ("denyTools", .arr [.str "shell(rm)"])]) =
        .ok c ∧
      c.bind = "127.0.0.1" ∧ c.port = .int 8080 ∧ c.defaultCwd = .str "/srv/work" ∧
      c.defaultTimeoutMs = .int 600000 ∧ c.allowAllTools = false ∧
      c.allowTools = ["git", "gh"] ∧ c.denyTools = ["shell(rm)"] ∧
      c.manifestDir = .str "/srv/bridge/var/manifests" ∧
      c.logDir = .str "/srv/bridge/var/logs" := by
  obtain ⟨⟨c, hc, h1, h2, h3, h4, h5, h6, h7, h8, h9⟩, _⟩ :=
    config_precedence demoPlatform
      (demoEnv [("BRIDGE_PORT", "8080"), ("DEFAULT_ALLOW_TOOLS", "git, gh")])
      [("defaultCwd", .str "/srv/work"), ("denyTools", .arr [.str "shell(rm)"])]
      (Or.inl rfl) (Or.inr ⟨[.str "shell(rm)"], rfl⟩) rfl rfl rfl rfl
  refine ⟨c, hc, ?_, ?_, ?_, ?_, ?_, ?_, ?_, ?_, ?_⟩
  · rw [h1]; decide
  · rw [h2]; decide
  · rw [h3]; rfl
  · rw [h4]; decide
  · rw [h5]; decide
  · rw [h6]; decide
  · rw [h7]; decide
  · rw [h8]; rfl
  · rw [h9]; rfl

/-- Counterexample to C9 as stated: with no environment variable set, a config
file with `bind`, `port`, `host` and `BRIDGE_PORT` keys leaves the bind address
and the port at their defaults; with `DEFAULT_CWD` set to the empty string the
working directory is taken from the config file; a `defaultTimeoutMs` of 0 in
the config file gives the default of 600000; an `allowTools` that is the string
`git,gh` and a `defaultTimeoutMs` that is the object `{"toString": 1}` end the
start-up with a `TypeError`: no config is built. -/
theorem config_precedence_counterexample :
    (∃ c : Config,
      resolveConfig demoPlatform (demoEnv [])
        (.obj [("bind", .str "0.0.0.0"), ("host", .str "0.0.0.0"), ("port", .num 8080),
          ("BRIDGE_BIND", .str "0.0.0.0"), ("BRIDGE_PORT", .num 8080)]) = .ok c ∧
      c.bind = "127.0.0.1" ∧ c.port = .int 7777) ∧
    (∃ c : Config,
      resolveConfig demoPlatform (demoEnv [("DEFAULT_CWD", "")])
        (.obj [("defaultCwd", .str "/srv/work")]) = .ok c ∧
      c.defaultCwd = .str "/srv/work") ∧
    (∃ c : Config,
      resolveConfig demoPlatform (demoEnv [])
        (.obj [("defaultTimeoutMs", .num 0)]) = .ok c ∧
      c.defaultTimeoutMs = .int 600000) ∧
    resolveConfig demoPlatform (demoEnv []) (.obj [("allowTools", .str "git,gh")]) =
      .error "TypeError: join is not a function" ∧
    resolveConfig demoPlatform (demoEnv [])
      (.obj [("defaultTimeoutMs", .obj [("toString", .num 1)])]) = .error conversionError :=
  ⟨⟨_, rfl, by decide, by decide⟩, ⟨_, rfl, rfl⟩, ⟨_, rfl, by decide⟩, rfl, rfl⟩

/-! ## The manifest of the CLI -/

theorem statAll_some (fs : FS) (full : List String)
    (h : ∀ p ∈ full, (fs.mtimeMs p).isSome = true) :
    ∃ timed, statAll fs full = some timed := by
  induction full with
  | nil => exact ⟨[], rfl⟩
  | cons p ps ih =>
    obtain ⟨rest, hrest⟩ := ih (fun q hq => h q (List.mem_cons_of_mem _ hq))
    obtain ⟨t, ht⟩ := Option.isSome_iff_exists.1 (h p (List.mem_cons_self _ _))
    exact ⟨(p, t) :: rest, by simp [statAll, ht, hrest]⟩

theorem statAll_spec (fs : FS) (full : List String) (timed : List (String × Int))
    (h : statAll fs full = some timed) :
    timed.map Prod.fst = full ∧ ∀ x ∈ timed, fs.mtimeMs x.1 = some x.2 := by
  induction full generalizing timed with
  | nil =>
    simp [statAll] at h
    subst h
    simp
  | cons p ps ih =>
    unfold statAll at h
    cases ht : fs.mtimeMs p with
    | none => rw [ht] at h; exact absurd h (by simp)
    | some t =>
      rw [ht] at h
      cases hr : statAll fs ps with
      | none => rw [hr] at h; exact absurd h (by simp)
      | some rest =>
        rw [hr] at h
        simp only [Option.some.injEq] at h
        subst h
        obtain ⟨h1, h2⟩ := ih rest hr
        refine ⟨by simp [h1], ?_⟩
        intro x hx
        rcases List.mem_cons.1 hx with hx | hx
        · subst hx; exact ht
        · exact h2 x hx

theorem statAll_none (fs : FS) (full : List String) (p : String) (hp : p ∈ full)
    (h : fs.mtimeMs p = none) : statAll fs full = none := by
  cases hs : statAll fs full with
  | none => rfl
  | some timed =>
    obtain ⟨h1, h2⟩ := statAll_spec fs full timed hs
    rw [← h1] at hp
    obtain ⟨x, hx, hxp⟩ := List.mem_map.1 hp
    have := h2 x hx
    rw [hxp, h] at this
    exact absurd this (by simp)

/-- The first element of the sorted array exists, is one of the paths, and no
path has a later modification time. -/
theorem sortByMtime_head (fs : FS) (full : List String) (hne : full ≠ [])
    (h : ∀ p ∈ full, (fs.mtimeMs p).isSome = true) :
    ∃ sorted p, sortByMtime fs full = some sorted ∧ sorted.head? = some p ∧ p ∈ full ∧
      ∀ q ∈ full, ∀ tq tp, fs.mtimeMs q = some tq → fs.mtimeMs p = some tp → tq ≤ tp := by
  match full, hne, h with
  | [p], _, _ =>
    refine ⟨[p], p, rfl, rfl, List.mem_singleton_self p, ?_⟩
    intro q hq tq tp h1 h2
    rw [List.mem_singleton.1 hq, h2] at h1
    injection h1 with h1
    exact le_of_eq h1.symm
  | a :: b :: rest, _, h =>
    obtain ⟨timed, htimed⟩ := statAll_some fs (a :: b :: rest) h
    obtain ⟨hfst, htime⟩ := statAll_spec fs _ timed htimed
    have hperm := List.perm_insertionSort newerFirst timed
    have hsorted := List.sorted_insertionSort newerFirst timed
    cases hs : timed.insertionSort newerFirst with
    | nil =>
      have : timed = [] := by
        have := hperm.length_eq
        rw [hs] at this
        exact List.length_eq_zero.1 this.symm
      rw [this] at hfst
      exact absurd hfst (by simp)
    | cons x xs =>
      rw [hs] at hperm hsorted
      have hx : x ∈ timed := hperm.subset (List.mem_cons_self _ _)
      refine ⟨(x :: xs).map Prod.fst, x.1, ?_, rfl, ?_, ?_⟩
      · simp only [sortByMtime, htimed, hs]
      · rw [← hfst]
        exact List.mem_map_of_mem _ hx
      · intro q hq tq tp h1 h2
        rw [← hfst] at hq
        obtain ⟨y, hy, hyq⟩ := List.mem_map.1 hq
        have hy2 := htime y hy
        rw [hyq, h1] at hy2
        have hx2 := htime x hx
        rw [h2] at hx2
        injection hy2 with hy2
        injection hx2 with hx2
        have hy' : y ∈ x :: xs := hperm.symm.subset hy
        rcases List.mem_cons.1 hy' with hyx | hyx
        · rw [hy2, hx2, hyx]
        · have := List.rel_of_sorted_cons hsorted y hyx
          unfold newerFirst at this
          rw [hy2, hx2]
          exact this

theorem findLatestCliManifest_of_entries (P : Platform) (fs : FS) (cwd : String)
    (names : List String) (hdir : fs.readdir cwd = some names)
    (hne : cliManifestEntries names ≠ []) :
    findLatestCliManifest P fs cwd =
      match sortByMtime fs ((cliManifestEntries names).map (fun f => P.pathJoin [cwd, f])) with
      | none => ManifestRef.none
      | some sorted =>
        match sorted.head? with
        | none => ManifestRef.none
        | some p =>
          match fs.readFile p with
          | none => ManifestRef.none
          | some buf => { path := p, sha256 := hashSha256 P buf } := by
  have hlen : ¬ (cliManifestEntries names).length = 0 := fun h => hne (List.length_eq_zero.1 h)
  simp only [findLatestCliManifest, hdir, hlen, if_false]

theorem sortByMtime_mem (fs : FS) (full sorted : List String)
    (h : sortByMtime fs full = some sorted) : ∀ p ∈ sorted, p ∈ full := by
  match full, h with
  | [], h => simp [sortByMtime] at h; subst h; simp
  | [a], h => simp [sortByMtime] at h; subst h; simp
  | a :: b :: rest, h =>
    simp only [sortByMtime] at h
    cases hs : statAll fs (a :: b :: rest) with
    | none => rw [hs] at h; exact absurd h (by simp)
    | some timed =>
      rw [hs] at h
      simp only [Option.some.injEq] at h
      subst h
      obtain ⟨hfst, _⟩ := statAll_spec fs _ timed hs
      intro p hp
      obtain ⟨x, hx, hxp⟩ := List.mem_map.1 hp
      rw [← hfst, ← hxp]
      exact List.mem_map_of_mem _ ((List.perm_insertionSort newerFirst timed).subset hx)

/-- C7, as amended: `findLatestCliManifest(cwd)` keeps exactly the entries of
the listing whose name starts with `.copilot.manifest.` and ends with `.json`.
When the directory cannot be listed or no entry is kept, the result is
`{ path: '', sha256: '' }`.  When at least one entry is kept and every kept
entry can be passed to `statSync` and read, the result is the path of a kept
entry whose modification time is greater than or equal to that of every kept
entry, with the SHA-256 of the contents of that file.  When no kept entry can
be read, or two or more entries are kept and one cannot be passed to
`statSync`, the result is `{ path: '', sha256: '' }` as well.  The function is
total: no error is raised. -/
theorem findLatestCliManifest_spec (P : Platform) (fs : FS) (cwd : String) :
    (fs.readdir cwd = none → findLatestCliManifest P fs cwd = ManifestRef.none) ∧
    ∀ names, fs.readdir cwd = some names →
      (∀ f, f ∈ cliManifestEntries names ↔
        f ∈ names ∧ jsStartsWith f ".copilot.manifest." = true ∧ jsEndsWith f ".json" = true) ∧
      (cliManifestEntries names = [] → findLatestCliManifest P fs cwd = ManifestRef.none) ∧
      (cliManifestEntries names ≠ [] →
        (∀ f ∈ cliManifestEntries names,
          (fs.mtimeMs (P.pathJoin [cwd, f])).isSome = true ∧
          (fs.readFile (P.pathJoin [cwd, f])).isSome = true) →
        ∃ f ∈ cliManifestEntries names, ∃ buf,
          fs.readFile (P.pathJoin [cwd, f]) = some buf ∧
          findLatestCliManifest P fs cwd =
            { path := P.pathJoin [cwd, f], sha256 := P.sha256Hex buf } ∧
          ∀ g ∈ cliManifestEntries names, ∀ tg tf,
            fs.mtimeMs (P.pathJoin [cwd, g]) = some tg →
            fs.mtimeMs (P.pathJoin [cwd, f]) = some tf → tg ≤ tf) ∧
      ((∀ f ∈ cliManifestEntries names, fs.readFile (P.pathJoin [cwd, f]) = none) →
        findLatestCliManifest P fs cwd = ManifestRef.none) ∧
      (2 ≤ (cliManifestEntries names).length →
        (∃ f ∈ cliManifestEntries names, fs.mtimeMs (P.pathJoin [cwd, f]) = none) →
        findLatestCliManifest P fs cwd = ManifestRef.none) := by
  refine ⟨fun h => by simp [findLatestCliManifest, h], ?_⟩
  intro names hdir
  refine ⟨?_, ?_, ?_, ?_, ?_⟩
  · intro f
    simp [cliManifestEntries, isCliManifestName, List.mem_filter]
  · intro h
    simp [findLatestCliManifest, hdir, h]
  · intro hne hall
    have hfull : (cliManifestEntries names).map (fun f => P.pathJoin [cwd, f]) ≠ [] := by
      simpa using hne
    obtain ⟨sorted, p, hsort, hhead, hp, hmax⟩ :=
      sortByMtime_head fs _ hfull (by
        intro q hq
        obtain ⟨f, hf, hfq⟩ := List.mem_map.1 hq
        rw [← hfq]
        exact (hall f hf).1)
    obtain ⟨f, hf, hfp⟩ := List.mem_map.1 hp
    obtain ⟨buf, hbuf⟩ := Option.isSome_iff_exists.1 (hall f hf).2
    refine ⟨f, hf, buf, hbuf, ?_, ?_⟩
    · rw [findLatestCliManifest_of_entries P fs cwd names hdir hne, hsort]
      simp only [hhead]
      rw [← hfp, hbuf]
      rfl
    · intro g hg tg tf h1 h2
      exact hmax _ (List.mem_map_of_mem _ hg) tg tf h1 (by rw [← hfp]; exact h2)
  · intro hnone
    by_cases hne : cliManifestEntries names = []
    · simp [findLatestCliManifest, hdir, hne]
    · rw [findLatestCliManifest_of_entries P fs cwd names hdir hne]
      cases hsort : sortByMtime fs
          ((cliManifestEntries names).map (fun f => P.pathJoin [cwd, f])) with
      | none => rfl
      | some sorted =>
        cases hhead : sorted.head? with
        | none => simp only [hhead]
        | some p =>
          have hp : p ∈ sorted := List.mem_of_mem_head? hhead
          obtain ⟨f, hf, hfp⟩ := List.mem_map.1 (sortByMtime_mem fs _ sorted hsort p hp)
          have := hnone f hf
          simp only [hfp] at this
          simp only [hhead, this]
  · intro hlen hex
    obtain ⟨f, hf, hnone⟩ := hex
    have hne : cliManifestEntries names ≠ [] := by
      intro h
      rw [h] at hlen
      simp at hlen
    rw [findLatestCliManifest_of_entries P fs cwd names hdir hne]
    have hsort : sortByMtime fs
        ((cliManifestEntries names).map (fun f => P.pathJoin [cwd, f])) = none := by
      match hm : cliManifestEntries names, hlen with
      | a :: b :: rest, _ =>
        have hmem : P.pathJoin [cwd, f] ∈
            (a :: b :: rest).map (fun f => P.pathJoin [cwd, f]) := by
          rw [← hm]
          exact List.mem_map_of_mem _ hf
        have := statAll_none fs _ _ hmem hnone
        simp only [List.map_cons] at this
        simp only [List.map_cons, sortByMtime, this]
    rw [hsort]

/-- Instance of C7 as amended: of two manifests of the CLI in `/work`, one of
the newest is returned with the digest of its contents. -/
theorem findLatestCliManifest_spec_witness :
    ∃ f ∈ cliManifestEntries
        [".copilot.manifest.1.json", "notes.txt", ".copilot.manifest.2.json"],
      ∃ buf,
        demoFsManifests.readFile (demoPlatform.pathJoin ["/work", f]) = some buf ∧
        findLatestCliManifest demoPlatform demoFsManifests "/work" =
          { path := demoPlatform.pathJoin ["/work", f], sha256 := demoPlatform.sha256Hex buf } ∧
        ∀ g ∈ cliManifestEntries
            [".copilot.manifest.1.json", "notes.txt", ".copilot.manifest.2.json"],
          ∀ tg tf,
            demoFsManifests.mtimeMs (demoPlatform.pathJoin ["/work", g]) = some tg →
            demoFsManifests.mtimeMs (demoPlatform.pathJoin ["/work", f]) = some tf → tg ≤ tf :=
  ((findLatestCliManifest_spec demoPlatform demoFsManifests "/work").2
    [".copilot.manifest.1.json", "notes.txt", ".copilot.manifest.2.json"] rfl).2.2.1
    (by decide) (by decide)

/-- Counterexample to C7 as stated: `/work` has one entry with the name of a
CLI manifest, a directory; the entry is kept, and the result is the empty
reference, not the path and digest of an entry. -/
theorem findLatestCliManifest_counterexample :
    demoFsDirectoryEntry.readdir "/work" = some [".copilot.manifest.d.json"] ∧
    cliManifestEntries [".copilot.manifest.d.json"] = [".copilot.manifest.d.json"] ∧
    demoFsDirectoryEntry.mtimeMs "/work/.copilot.manifest.d.json" = some 1000 ∧
    findLatestCliManifest demoPlatform demoFsDirectoryEntry "/work" =
      { path := "", sha256 := "" } := by
  decide

/-! ## The name of the bridge manifest -/

theorem doy_bounds (doe yoe : Int) (h0 : 0 ≤ doe) (h1 : doe < 146097)
    (hy : yoe = (doe - doe / 1460 + doe / 36524 - doe / 146096) / 365) :
    0 ≤ doe - (365 * yoe + yoe / 4 - yoe / 100) ∧
    doe - (365 * yoe + yoe / 4 - yoe / 100) ≤ 365 := by
  have hd : doe / 36524 = 0 ∨ doe / 36524 = 1 ∨ doe / 36524 = 2 ∨ doe / 36524 = 3 ∨
      doe / 36524 = 4 := by omega
  have he : doe / 146096 = 0 ∨ doe / 146096 = 1 := by omega
  have hg : yoe / 100 = 0 ∨ yoe / 100 = 1 ∨ yoe / 100 = 2 ∨ yoe / 100 = 3 := by omega
  rcases hd with hd | hd | hd | hd | hd <;> rcases he with he | he <;>
    rcases hg with hg | hg | hg | hg <;> omega

/-- The parts of `civilFromDays`: era, day of era, year of era, day of year and
month index, with their ranges. -/
theorem civilFromDays_parts (day : Int) :
    ∃ era doe yoe doy mp : Int,
      day + 719468 = era * 146097 + doe ∧
      doe = doy + (365 * yoe + yoe / 4 - yoe / 100) ∧
      0 ≤ yoe ∧ yoe ≤ 399 ∧ 0 ≤ doy ∧ doy ≤ 365 ∧ 0 ≤ mp ∧ mp ≤ 11 ∧
      153 * mp ≤ 5 * doy + 2 ∧ 5 * doy + 2 < 153 * mp + 153 ∧
      civilFromDays day =
        (yoe + era * 400 + (if (if mp < 10 then mp + 3 else mp - 9) ≤ 2 then 1 else 0),
         (if mp < 10 then mp + 3 else mp - 9),
         doy - (153 * mp + 2) / 5 + 1) := by
  have hdoe0 : 0 ≤ (day + 719468) % 146097 := Int.emod_nonneg _ (by norm_num)
  have hdoe1 : (day + 719468) % 146097 < 146097 := Int.emod_lt_of_pos _ (by norm_num)
  obtain ⟨hdoy0, hdoy1⟩ := doy_bounds ((day + 719468) % 146097) _ hdoe0 hdoe1 rfl
  refine ⟨(day + 719468) / 146097, (day + 719468) % 146097,
    ((day + 719468) % 146097 - (day + 719468) % 146097 / 1460 +
      (day + 719468) % 146097 / 36524 - (day + 719468) % 146097 / 146096) / 365,
    _, _, ?_, ?_, ?_, ?_, hdoy0, hdoy1, ?_, ?_, ?_, ?_, rfl⟩
  · have := Int.ediv_add_emod (day + 719468) 146097
    linarith
  · ring
  · omega
  · omega
  · omega
  · omega
  · omega
  · omega

theorem civilFromDays_injective (a b : Int) (h : civilFromDays a = civilFromDays b) : a = b := by
  obtain ⟨era1, doe1, yoe1, doy1, mp1, hz1, hd1, hy0, hy1, hdy0, hdy1, hm0, hm1, hl1, hu1, hc1⟩ :=
    civilFromDays_parts a
  obtain ⟨era2, doe2, yoe2, doy2, mp2, hz2, hd2, ky0, ky1, kdy0, kdy1, km0, km1, kl1, ku1, hc2⟩ :=
    civilFromDays_parts b
  rw [hc1, hc2] at h
  simp only [Prod.mk.injEq] at h
  obtain ⟨hy, hm, hd⟩ := h
  have hmp : mp1 = mp2 := by
    split_ifs at hm <;> omega
  subst hmp
  have hdoy : doy1 = doy2 := by omega
  subst hdoy
  have hyy : yoe1 + era1 * 400 = yoe2 + era2 * 400 := by
    split_ifs at hy <;> omega
  have hera : era1 = era2 := by omega
  subst hera
  have hyoe : yoe1 = yoe2 := by omega
  subst hyoe
  omega

theorem civilFromDays_month_day (day : Int) :
    1 ≤ (civilFromDays day).2.1 ∧ (civilFromDays day).2.1 ≤ 12 ∧
    1 ≤ (civilFromDays day).2.2 ∧ (civilFromDays day).2.2 ≤ 31 := by
  obtain ⟨era, doe, yoe, doy, mp, _, _, _, _, _, _, hm0, hm1, hl, hu, hc⟩ :=
    civilFromDays_parts day
  rw [hc]
  simp only
  refine ⟨?_, ?_, ?_, ?_⟩
  · split_ifs <;> omega
  · split_ifs <;> omega
  · omega
  · omega

theorem digitChar_inj (a b : Nat) (h : digitChar a = digitChar b) : a % 10 = b % 10 := by
  unfold digitChar at h
  have ha : a % 10 < 10 := Nat.mod_lt _ (by norm_num)
  have hb : b % 10 < 10 := Nat.mod_lt _ (by norm_num)
  generalize a % 10 = x at h ha ⊢
  generalize b % 10 = y at h hb ⊢
  interval_cases x <;> interval_cases y <;> first | rfl | exact absurd h (by decide)

theorem replaceColonDot_digitChar (d : Nat) : replaceColonDot (digitChar d) = digitChar d := by
  unfold digitChar
  have hd : d % 10 < 10 := Nat.mod_lt _ (by norm_num)
  generalize d % 10 = x at hd ⊢
  interval_cases x <;> decide

theorem stampChars_inj (y1 m1 d1 h1 n1 s1 k1 y2 m2 d2 h2 n2 s2 k2 : Nat)
    (hy1 : y1 < 10000) (hy2 : y2 < 10000) (hm1 : m1 < 100) (hm2 : m2 < 100)
    (hd1 : d1 < 100) (hd2 : d2 < 100) (hh1 : h1 < 100) (hh2 : h2 < 100)
    (hn1 : n1 < 100) (hn2 : n2 < 100) (hs1 : s1 < 100) (hs2 : s2 < 100)
    (hk1 : k1 < 1000) (hk2 : k2 < 1000)
    (h : stampChars y1 m1 d1 h1 n1 s1 k1 = stampChars y2 m2 d2 h2 n2 s2 k2) :
    y1 = y2 ∧ m1 = m2 ∧ d1 = d2 ∧ h1 = h2 ∧ n1 = n2 ∧ s1 = s2 ∧ k1 = k2 := by
  simp only [stampChars, pad4, pad2, pad3, List.cons_append, List.nil_append, List.cons.injEq,
    and_true, true_and] at h
  obtain ⟨a1, a2, a3, a4, b1, b2, c1, c2, e1, e2, f1, f2, g1, g2, i1, i2, i3⟩ := h
  have a1 := digitChar_inj _ _ a1
  have a2 := digitChar_inj _ _ a2
  have a3 := digitChar_inj _ _ a3
  have a4 := digitChar_inj _ _ a4
  have b1 := digitChar_inj _ _ b1
  have b2 := digitChar_inj _ _ b2
  have c1 := digitChar_inj _ _ c1
  have c2 := digitChar_inj _ _ c2
  have e1 := digitChar_inj _ _ e1
  have e2 := digitChar_inj _ _ e2
  have f1 := digitChar_inj _ _ f1
  have f2 := digitChar_inj _ _ f2
  have g1 := digitChar_inj _ _ g1
  have g2 := digitChar_inj _ _ g2
  have i1 := digitChar_inj _ _ i1
  have i2 := digitChar_inj _ _ i2
  have i3 := digitChar_inj _ _ i3
  refine ⟨?_, ?_, ?_, ?_, ?_, ?_, ?_⟩ <;> omega

theorem manifestStamp_data (t : Int) (h0 : 0 ≤ isoYear t) (h1 : isoYear t ≤ 9999) :
    (manifestStamp t).data =
      stampChars (isoYear t).toNat (civilFromDays (t / 86400000)).2.1.toNat
        (civilFromDays (t / 86400000)).2.2.toNat
        ((t % 86400000).toNat / 3600000) ((t % 86400000).toNat / 60000 % 60)
        ((t % 86400000).toNat / 1000 % 60) ((t % 86400000).toNat % 1000) := by
  have hy : 0 ≤ (civilFromDays (t / 86400000)).1 ∧ (civilFromDays (t / 86400000)).1 ≤ 9999 :=
    ⟨h0, h1⟩
  simp only [manifestStamp, isoChars, hy, and_self, if_true, stampChars, pad4, pad2, pad3,
    List.map_append, List.map_cons, List.map_nil, replaceColonDot_digitChar, isoYear]
  rfl

theorem manifestStamp_injective (t1 t2 : Int)
    (h1 : 0 ≤ isoYear t1 ∧ isoYear t1 ≤ 9999) (h2 : 0 ≤ isoYear t2 ∧ isoYear t2 ≤ 9999)
    (h : (manifestStamp t1).data = (manifestStamp t2).data) : t1 = t2 := by
  rw [manifestStamp_data t1 h1.1 h1.2, manifestStamp_data t2 h2.1 h2.2] at h
  obtain ⟨m1a, m1b, d1a, d1b⟩ := civilFromDays_month_day (t1 / 86400000)
  obtain ⟨m2a, m2b, d2a, d2b⟩ := civilFromDays_month_day (t2 / 86400000)
  have ht1 : 0 ≤ t1 % 86400000 := Int.emod_nonneg _ (by norm_num)
  have ht1' : t1 % 86400000 < 86400000 := Int.emod_lt_of_pos _ (by norm_num)
  have ht2 : 0 ≤ t2 % 86400000 := Int.emod_nonneg _ (by norm_num)
  have ht2' : t2 % 86400000 < 86400000 := Int.emod_lt_of_pos _ (by norm_num)
  obtain ⟨ey, em, ed, eh, en, es, ek⟩ :=
    stampChars_inj _ _ _ _ _ _ _ _ _ _ _ _ _ _
      (by omega) (by omega) (by omega) (by omega) (by omega) (by omega) (by omega) (by omega)
      (by omega) (by omega) (by omega) (by omega) (by omega) (by omega) h
  have hday : t1 / 86400000 = t2 / 86400000 := by
    apply civilFromDays_injective
    have e1 : (civilFromDays (t1 / 86400000)).1 = (civilFromDays (t2 / 86400000)).1 := by
      have := h1.1
      have := h2.1
      unfold isoYear at *
      omega
    have e2 : (civilFromDays (t1 / 86400000)).2.1 = (civilFromDays (t2 / 86400000)).2.1 := by
      omega
    have e3 : (civilFromDays (t1 / 86400000)).2.2 = (civilFromDays (t2 / 86400000)).2.2 := by
      omega
    exact Prod.ext e1 (Prod.ext e2 e3)
  have htod : t1 % 86400000 = t2 % 86400000 := by omega
  have := Int.ediv_add_emod t1 86400000
  have := Int.ediv_add_emod t2 86400000
  omega

/-- C8: the file name that `writeBridgeManifest` generates at clock reading `t`
is `bridge.manifest.`, then the characters of the ISO-8601 time stamp of `t`
with every `:` and `.` replaced by `-`, then `.json`; and for two clock
readings `t1`, `t2` in the years 0000 to 9999 that differ, the two file names
differ. -/
theorem bridgeManifestName_injective (P : Platform) (dir : String) (t1 t2 : Int)
    (h1 : 0 ≤ isoYear t1 ∧ isoYear t1 ≤ 9999) (h2 : 0 ≤ isoYear t2 ∧ isoYear t2 ≤ 9999)
    (hne : t1 ≠ t2) :
    bridgeManifestPath P t1 dir =
      P.pathJoin [if P.pathIsAbsolute dir then dir else P.pathJoin [P.rootDir, dir],
        bridgeManifestName t1] ∧
    (bridgeManifestName t1).data =
      "bridge.manifest.".data ++ (toISOString t1).data.map replaceColonDot ++ ".json".data ∧
    (∀ c ∈ (toISOString t1).data.map replaceColonDot, c ≠ ':' ∧ c ≠ '.') ∧
    bridgeManifestName t1 ≠ bridgeManifestName t2 := by
  refine ⟨rfl, rfl, ?_, ?_⟩
  · intro c hc
    obtain ⟨x, _, hx⟩ := List.mem_map.1 hc
    rw [← hx]
    unfold replaceColonDot
    split_ifs with hcase
    · exact ⟨by decide, by decide⟩
    · exact ⟨fun h => hcase (Or.inl h), fun h => hcase (Or.inr h)⟩
  · intro h
    apply hne
    apply manifestStamp_injective t1 t2 h1 h2
    have hd := congrArg String.data h
    simp only [bridgeManifestName, String.data_append] at hd
    exact List.append_cancel_left (List.append_cancel_right hd)

/-- Witness of C8: two clock readings one millisecond apart in 2024. -/
theorem bridgeManifestName_injective_witness :
    (0 ≤ isoYear 1730764800123 ∧ isoYear 1730764800123 ≤ 9999) ∧
    (0 ≤ isoYear 1730764800124 ∧ isoYear 1730764800124 ≤ 9999) ∧
    bridgeManifestName 1730764800123 = "bridge.manifest.2024-11-05T00-00-00-123Z.json" ∧
    bridgeManifestName 1730764800123 ≠ bridgeManifestName 1730764800124 :=
  ⟨by decide, by decide, by decide,
   (bridgeManifestName_injective demoPlatform "/var/manifests" 1730764800123 1730764800124
      (by decide) (by decide) (by decide)).2.2.2⟩

/-! ## The events of a run -/

theorem runTrace_append (P : Platform) (cfg : Config) (r : Run) (xs ys : List Event) :
    runTrace P cfg r (xs ++ ys) =
      (runTrace P cfg r xs).bind (fun r' => runTrace P cfg r' ys) := by
  induction xs generalizing r with
  | nil => rfl
  | cons x xs ih =>
    simp only [List.cons_append, runTrace]
    cases step P cfg r x with
    | none => rfl
    | some r' => exact ih r'

theorem step_not_crashed (P : Platform) (cfg : Config) (r r' : Run) (e : Event)
    (h : step P cfg r e = some r') : r.crashed = false ∧ dispatch P cfg r e = some r' := by
  cases hc : r.crashed with
  | false =>
    unfold step at h
    rw [hc] at h
    exact ⟨rfl, h⟩
  | true => simp [step, hc] at h

theorem step_eq_dispatch (P : Platform) (cfg : Config) (r : Run) (e : Event)
    (hc : r.crashed = false) : step P cfg r e = dispatch P cfg r e := by
  unfold step
  rw [hc]
  rfl

theorem step_deadline (P : Platform) (cfg : Config) (r r' : Run)
    (h : step P cfg r .deadline = some r') :
    ∃ due, r.killer = some due ∧ due ≤ r.now ∧ r'.killer = none ∧
      r'.killedByTimeout = true ∧ r'.killCalls = r.killCalls ++ [(r.now, .SIGTERM)] ∧
      r'.signals = (if r.childAlive then r.signals ++ [(r.now, .SIGTERM)] else r.signals) ∧
      r'.grace = r.grace ++ [r.now + 5000] ∧ r'.now = r.now := by
  obtain ⟨hc, h⟩ := step_not_crashed P cfg r r' _ h
  simp only [dispatch] at h
  split at h
  · exact absurd h (by simp)
  · rename_i due hk
    split at h
    · rename_i hdue
      injection h with h
      subst h
      exact ⟨due, hk, hdue, rfl, rfl, rfl, rfl, rfl, rfl⟩
    · exact absurd h (by simp)

theorem step_graceExpired (P : Platform) (cfg : Config) (r r' : Run)
    (h : step P cfg r .graceExpired = some r') :
    ∃ due rest, r.grace = due :: rest ∧ due ≤ r.now ∧ r'.grace = rest ∧
      r'.killer = r.killer ∧ r'.killedByTimeout = r.killedByTimeout ∧
      r'.killCalls = r.killCalls ++ [(r.now, .SIGKILL)] ∧
      r'.signals = (if r.childAlive then r.signals ++ [(r.now, .SIGKILL)] else r.signals) := by
  obtain ⟨hc, h⟩ := step_not_crashed P cfg r r' _ h
  simp only [dispatch] at h
  split at h
  · exact absurd h (by simp)
  · rename_i due rest hg
    split at h
    · rename_i hdue
      injection h with h
      subst h
      exact ⟨due, rest, hg, hdue, rfl, rfl, rfl, rfl, rfl⟩
    · exact absurd h (by simp)

theorem finish_frame (P : Platform) (cfg : Config) (r1 : Run) (data : JsVal) (status : Nat)
    (body : ManifestRef → JsVal) :
    (r1.finish P cfg data status body).killer = r1.killer ∧
      (r1.finish P cfg data status body).killedByTimeout = r1.killedByTimeout ∧
      (r1.finish P cfg data status body).killCalls = r1.killCalls ∧
      (r1.finish P cfg data status body).signals = r1.signals ∧
      (r1.finish P cfg data status body).grace = r1.grace ∧
      (r1.finish P cfg data status body).launch = r1.launch := by
  unfold Run.finish
  split
  · exact ⟨rfl, rfl, rfl, rfl, rfl, rfl⟩
  · split <;> exact ⟨rfl, rfl, rfl, rfl, rfl, rfl⟩

/-- An event other than the two timer callbacks sends no signal and arms no
timer. -/
theorem step_no_timer (P : Platform) (cfg : Config) (r r' : Run) (e : Event)
    (hd : e ≠ .deadline) (hg : e ≠ .graceExpired) (h : step P cfg r e = some r') :
    r'.killCalls = r.killCalls ∧ r'.signals = r.signals ∧ r'.grace = r.grace ∧
      r'.killedByTimeout = r.killedByTimeout ∧ r'.launch = r.launch ∧
      (r.killer = none → r'.killer = none) := by
  obtain ⟨hc, h⟩ := step_not_crashed P cfg r r' _ h
  cases e with
  | tick dt => simp [dispatch] at h; subst h; exact ⟨rfl, rfl, rfl, rfl, rfl, id⟩
  | world fs => simp [dispatch] at h; subst h; exact ⟨rfl, rfl, rfl, rfl, rfl, id⟩
  | stdoutData d => simp [dispatch] at h; subst h; exact ⟨rfl, rfl, rfl, rfl, rfl, id⟩
  | stderrData d => simp [dispatch] at h; subst h; exact ⟨rfl, rfl, rfl, rfl, rfl, id⟩
  | deadline => exact absurd rfl hd
  | graceExpired => exact absurd rfl hg
  | childExit =>
    simp only [dispatch] at h
    split at h
    · injection h with h; subst h; exact ⟨rfl, rfl, rfl, rfl, rfl, id⟩
    · exact absurd h (by simp)
  | childError e =>
    simp only [dispatch] at h
    injection h with h
    subst h
    exact ⟨(finish_frame P cfg _ _ _ _).2.2.1, (finish_frame P cfg _ _ _ _).2.2.2.1,
      (finish_frame P cfg _ _ _ _).2.2.2.2.1, (finish_frame P cfg _ _ _ _).2.1,
      (finish_frame P cfg _ _ _ _).2.2.2.2.2, fun _ => (finish_frame P cfg _ _ _ _).1⟩
  | childClose rc =>
    simp only [dispatch] at h
    injection h with h
    subst h
    exact ⟨(finish_frame P cfg _ _ _ _).2.2.1, (finish_frame P cfg _ _ _ _).2.2.2.1,
      (finish_frame P cfg _ _ _ _).2.2.2.2.1, (finish_frame P cfg _ _ _ _).2.1,
      (finish_frame P cfg _ _ _ _).2.2.2.2.2, fun _ => (finish_frame P cfg _ _ _ _).1⟩

/-- An event without a handler that answers leaves the answer, the manifests
and the pending deadline of the request as they are, unless it is the callback
of the deadline itself. -/
theorem step_not_terminal (P : Platform) (cfg : Config) (r r' : Run) (e : Event)
    (he : e.isTerminal = false) (h : step P cfg r e = some r') :
    r'.responses = r.responses ∧ r'.manifests = r.manifests ∧ r'.launch = r.launch ∧
      r'.crashed = false ∧ (e ≠ .deadline → r'.killer = r.killer) := by
  obtain ⟨hc, h⟩ := step_not_crashed P cfg r r' _ h
  cases e with
  | tick dt => simp [dispatch] at h; subst h; exact ⟨rfl, rfl, rfl, hc, fun _ => rfl⟩
  | world fs => simp [dispatch] at h; subst h; exact ⟨rfl, rfl, rfl, hc, fun _ => rfl⟩
  | stdoutData d => simp [dispatch] at h; subst h; exact ⟨rfl, rfl, rfl, hc, fun _ => rfl⟩
  | stderrData d => simp [dispatch] at h; subst h; exact ⟨rfl, rfl, rfl, hc, fun _ => rfl⟩
  | deadline =>
    simp only [dispatch] at h
    split at h
    · exact absurd h (by simp)
    · split at h
      · injection h with h; subst h; exact ⟨rfl, rfl, rfl, hc, fun hx => absurd rfl hx⟩
      · exact absurd h (by simp)
  | graceExpired =>
    simp only [dispatch] at h
    split at h
    · exact absurd h (by simp)
    · split at h
      · injection h with h; subst h; exact ⟨rfl, rfl, rfl, hc, fun _ => rfl⟩
      · exact absurd h (by simp)
  | childExit =>
    simp only [dispatch] at h
    split at h
    · injection h with h; subst h; exact ⟨rfl, rfl, rfl, hc, fun _ => rfl⟩
    · exact absurd h (by simp)
  | childError e => simp [Event.isTerminal] at he
  | childClose rc => simp [Event.isTerminal] at he

theorem runTrace_not_terminal (P : Platform) (cfg : Config) (evs : List Event) (r r' : Run)
    (he : ∀ e ∈ evs, e.isTerminal = false) (hc : r.crashed = false)
    (h : runTrace P cfg r evs = some r') :
    r'.responses = r.responses ∧ r'.manifests = r.manifests ∧ r'.launch = r.launch ∧
      r'.crashed = false := by
  induction evs generalizing r with
  | nil => simp [runTrace] at h; subst h; exact ⟨rfl, rfl, rfl, hc⟩
  | cons x xs ih =>
    simp only [runTrace] at h
    cases hs : step P cfg r x with
    | none => rw [hs] at h; exact absurd h (by simp)
    | some r1 =>
      rw [hs] at h
      obtain ⟨h1, h2, h3, h4, _⟩ :=
        step_not_terminal P cfg r r1 x (he x (List.mem_cons_self _ _)) hs
      obtain ⟨k1, k2, k3, k4⟩ :=
        ih r1 (fun e hmem => he e (List.mem_cons_of_mem _ hmem)) h4 h
      exact ⟨k1.trans h1, k2.trans h2, k3.trans h3, k4⟩

/-- The `close` handler on a request that is not answered yet, when the
manifest can be written. -/
theorem step_childClose (P : Platform) (cfg : Config) (r : Run) (rc : Option Int) (dir : String)
    (hc : r.crashed = false) (hresp : r.responses = [])
    (hdir : cfg.manifestDir = .str dir)
    (hw : r.fs.writable (bridgeManifestPath P r.now dir) = true) :
    ∃ (r' : Run) (cli bridge : ManifestRef),
      step P cfg r (.childClose rc) = some r' ∧
      r'.responses =
        [(200, closeResponse P { r with killer := none, childAlive := false } rc cli bridge)] ∧
      r'.manifests = r.manifests ++
        [(closeManifestData P { r with killer := none, childAlive := false } rc cli, bridge)] ∧
      r'.fs.readFile bridge.path = some (P.utf8 (P.jsonStringify
        (closeManifestData P { r with killer := none, childAlive := false } rc cli))) := by
  let r1 : Run := { r with killer := none, childAlive := false }
  let cli := findLatestCliManifest P r.fs r.launch.workdir
  obtain ⟨fs', hres, hwf⟩ :=
    writeBridgeManifest_obj P r.fs r.now dir
      [("version", .num 1),
       ("started_at", .str (toISOString r1.launch.started)),
       ("ended_at", .str (toISOString r1.now)),
       ("duration_ms", .num (r1.now - r1.launch.started)),
       ("host", .str P.hostname),
       ("user", .str P.username),
       ("pid", .num P.pid),
       ("exec", .obj [("cmd", .str r1.launch.cmd), ("args", .arr r1.launch.args),
         ("cwd", .str r1.launch.workdir), ("killed_by_timeout", .bool r1.killedByTimeout)]),
       ("input", .obj [("allowAllTools", r1.launch.input.allowAllTools),
         ("allowTools", r1.launch.input.allowTools), ("denyTools", r1.launch.input.denyTools),
         ("prompt_bytes", .num (byteLength P (jsToString P r1.launch.input.prompt)))]),
       ("output", .obj [("bytes_stdout", .num (byteLength P r1.stdout)),
         ("bytes_stderr", .num (byteLength P r1.stderr))]),
       ("result", .obj [("rc", rcValue rc)]),
       ("cli_manifest", .obj [("path", .str cli.path), ("sha256", .str cli.sha256)])] hw
  have hres' : writeConfigured P cfg r1.fs r1.now (closeManifestData P r1 rc cli) =
      some ({ path := bridgeManifestPath P r.now dir,
              sha256 := hashSha256 P (P.utf8 (P.jsonStringify (closeManifestData P r1 rc cli))) },
            fs') := by
    simp only [writeConfigured, hdir]
    exact hres
  have hemp : r1.responses.isEmpty = true := by
    show r.responses.isEmpty = true
    rw [hresp]
    rfl
  refine ⟨{ r1 with
      fs := fs'
      manifests := r1.manifests ++ [(closeManifestData P r1 rc cli,
        { path := bridgeManifestPath P r.now dir,
          sha256 := hashSha256 P (P.utf8 (P.jsonStringify (closeManifestData P r1 rc cli))) })]
      responses := r1.responses ++ [(200, closeResponse P r1 rc cli
        { path := bridgeManifestPath P r.now dir,
          sha256 := hashSha256 P (P.utf8 (P.jsonStringify (closeManifestData P r1 rc cli))) })] },
    cli, _, ?_, ?_, rfl, ?_⟩
  · rw [step_eq_dispatch P cfg r _ hc]
    simp only [dispatch, Run.finish]
    rw [hres']
    simp only [hemp, if_true]
  · show r.responses ++ _ = _
    rw [hresp]
    rfl
  · exact writeFile_readFile _ _ _ _ _ hwf

/-- C4, the code at the failing request: the prompt `a\u0000b` passes the
validation, `spawn` throws on the null byte of the argument, nothing catches
the exception, and the request gets no response and no manifest.  A launch
failure that arrives as the `error` event is answered with status 500 and the
error text, and a manifest with that text is written; the `close` event that
follows it writes a second manifest and throws, the request being answered.
With a `timeoutMs` that is the object `{"toString": 1}` the child is spawned
and `Math.max(1, timeoutMs)` throws before the handlers are attached: the
close of the child with code 0 is not answered. -/
theorem launch_failure_unanswered :
    (∃ (l : Launch) (e : String),
      promptRejected (.str "a\x00b") = false ∧
      handleRun demoPlatform demoConfig demoFs 0 (.obj [("prompt", .str "a\x00b")]) =
        .spawned l ∧
      l.args = [.str "-p", .str "a\x00b", .str "--allow-tool", .str "shell",
        .str "--allow-tool", .str "git", .str "--allow-tool", .str "gh",
        .str "--allow-tool", .str "write", .str "--deny-tool", .str "shell(rm)",
        .str "--deny-tool", .str "shell(sudo)", .str "--deny-tool", .str "shell(dd)",
        .str "--deny-tool", .str "shell(curl -X POST)", .str "--deny-tool", .str "shell(wget)",
        .str "--deny-tool", .str "shell(docker push)"] ∧
      l.thrown = some e ∧
      serve demoPlatform demoConfig demoFs 0 (.obj [("prompt", .str "a\x00b")])
          [.tick 5000] =
        some { spawned := some l, responses := [], manifests := [], fs := demoFs }) ∧
    (∃ (l : Launch) (r r' : Run) (b data : JsVal) (ref : ManifestRef),
      handleRun demoPlatform demoConfig demoFs 0 (.obj [("prompt", .str "list files")]) =
        .spawned l ∧
      l.thrown = none ∧
      runTrace demoPlatform demoConfig (Run.start l demoFs)
        [.childError "Error: spawn copilot ENOENT"] = some r ∧
      r.responses = [(500, b)] ∧
      b.getProp "ok" = .bool false ∧
      b.getProp "error" = .str "spawn error: Error: spawn copilot ENOENT" ∧
      r.manifests = [(data, ref)] ∧
      (data.getProp "result").getProp "error" = .str "Error: spawn copilot ENOENT" ∧
      r.crashed = false ∧
      runTrace demoPlatform demoConfig r [.childClose (some (-2))] = some r' ∧
      r'.responses = [(500, b)] ∧ r'.manifests.length = 2 ∧ r'.crashed = true) ∧
    (∃ (l : Launch),
      handleRun demoPlatform demoConfig demoFs 0
        (.obj [("prompt", .str "list files"), ("timeoutMs", .obj [("toString", .num 1)])]) =
        .spawned l ∧
      spawnThrows demoPlatform l.args = none ∧
      l.thrown = some conversionError ∧
      serve demoPlatform demoConfig demoFs 0
          (.obj [("prompt", .str "list files"), ("timeoutMs", .obj [("toString", .num 1)])])
          [.tick 100, .childExit, .childClose (some 0)] =
        some { spawned := some l, responses := [], manifests := [], fs := demoFs }) :=
  ⟨⟨_, _, rfl, rfl, rfl, rfl, rfl⟩,
   ⟨_, _, _, _, _, _, rfl, rfl, rfl, rfl, rfl, rfl, rfl, rfl, rfl, rfl, rfl, rfl, rfl⟩,
   ⟨_, rfl, rfl, rfl, rfl⟩⟩

/-! ## The timeout -/

theorem start_running (l : Launch) (fs : FS) : (Run.start l fs).Running :=
  ⟨rfl, rfl, rfl, rfl, rfl, rfl, rfl, rfl⟩

theorem step_terminal_killer (P : Platform) (cfg : Config) (r r' : Run) (e : Event)
    (he : e.isTerminal = true) (h : step P cfg r e = some r') : r'.killer = none := by
  obtain ⟨hc, h⟩ := step_not_crashed P cfg r r' _ h
  cases e with
  | childError e =>
    simp only [dispatch] at h
    injection h with h
    subst h
    exact (finish_frame P cfg _ _ _ _).1
  | childClose rc =>
    simp only [dispatch] at h
    injection h with h
    subst h
    exact (finish_frame P cfg _ _ _ _).1
  | _ => simp [Event.isTerminal] at he

/-- While the timer `killer` is pending the run is in the phase RUNNING. -/
theorem step_running (P : Platform) (cfg : Config) (r r' : Run) (e : Event)
    (hr : r.Running ∨ r.killer = none) (h : step P cfg r e = some r') :
    r'.Running ∨ r'.killer = none := by
  by_cases hd : e = .deadline
  · subst hd
    obtain ⟨_, _, _, hk, _⟩ := step_deadline P cfg r r' h
    exact Or.inr hk
  · by_cases ht : e.isTerminal = true
    · exact Or.inr (step_terminal_killer P cfg r r' e ht h)
    · have ht' : e.isTerminal = false := by simpa using ht
      obtain ⟨n1, n2, n3, n4, n5⟩ := step_not_terminal P cfg r r' e ht' h
      have hkeep := n5 hd
      rcases hr with hr | hr
      · by_cases hg : e = .graceExpired
        · subst hg
          obtain ⟨due, rest, g1, _⟩ := step_graceExpired P cfg r r' h
          rw [hr.2.2.2.2.1] at g1
          exact absurd g1 (by simp)
        · obtain ⟨t1, t2, t3, t4, t5, _⟩ := step_no_timer P cfg r r' e hd hg h
          obtain ⟨a1, a2, a3, a4, a5, a6, a7, _⟩ := hr
          exact Or.inl ⟨by rw [hkeep, t5]; exact a1, by rw [t4]; exact a2, by rw [t1]; exact a3,
            by rw [t2]; exact a4, by rw [t3]; exact a5, by rw [n1]; exact a6,
            by rw [n2]; exact a7, n4⟩
      · exact Or.inr (by rw [hkeep]; exact hr)

theorem runTrace_running (P : Platform) (cfg : Config) (evs : List Event) (r r' : Run)
    (hr : r.Running ∨ r.killer = none) (h : runTrace P cfg r evs = some r') :
    r'.Running ∨ r'.killer = none := by
  induction evs generalizing r with
  | nil => simp [runTrace] at h; subst h; exact hr
  | cons x xs ih =>
    simp only [runTrace] at h
    cases hs : step P cfg r x with
    | none => rw [hs] at h; exact absurd h (by simp)
    | some r1 =>
      rw [hs] at h
      exact ih r1 (step_running P cfg r r1 x hr hs) h

/-- Once the timer `killer` is gone, the signals sent change only by the
callback of a pending inner timer. -/
theorem runTrace_frozen (P : Platform) (cfg : Config) (evs : List Event) (r r' : Run)
    (hk : r.killer = none) (hg : r.grace = [] ∨ Event.graceExpired ∉ evs)
    (h : runTrace P cfg r evs = some r') :
    r'.killCalls = r.killCalls ∧ r'.signals = r.signals ∧ r'.grace = r.grace ∧
      r'.killer = none ∧ r'.killedByTimeout = r.killedByTimeout := by
  induction evs generalizing r with
  | nil => simp [runTrace] at h; subst h; exact ⟨rfl, rfl, rfl, hk, rfl⟩
  | cons x xs ih =>
    simp only [runTrace] at h
    cases hs : step P cfg r x with
    | none => rw [hs] at h; exact absurd h (by simp)
    | some r1 =>
      rw [hs] at h
      have hd : x ≠ .deadline := by
        intro hx
        subst hx
        obtain ⟨due, hdue, _⟩ := step_deadline P cfg r r1 hs
        rw [hk] at hdue
        exact absurd hdue (by simp)
      have hge : x ≠ .graceExpired := by
        intro hx
        subst hx
        rcases hg with hg | hg
        · obtain ⟨due, rest, g1, _⟩ := step_graceExpired P cfg r r1 hs
          rw [hg] at g1
          exact absurd g1 (by simp)
        · exact hg (List.mem_cons_self _ _)
      obtain ⟨t1, t2, t3, t4, _, t6⟩ := step_no_timer P cfg r r1 x hd hge hs
      have hg1 : r1.grace = [] ∨ Event.graceExpired ∉ xs := by
        rcases hg with hg | hg
        · exact Or.inl (by rw [t3]; exact hg)
        · exact Or.inr (fun hmem => hg (List.mem_cons_of_mem _ hmem))
      obtain ⟨k1, k2, k3, k4, k5⟩ := ih r1 (t6 hk) hg1 h
      exact ⟨k1.trans t1, k2.trans t2, k3.trans t3, k4, k5.trans t4⟩

/-- After the deadline callback the run stays in the phase GRACE until the
callback of the inner timer has run. -/
theorem runTrace_grace (P : Platform) (cfg : Config) (evs : List Event) (r r' : Run) (t : Int)
    (hr : r.killer = none ∧ (r.Grace t ∨ r.grace = []))
    (h : runTrace P cfg r evs = some r') :
    r'.killer = none ∧ (r'.Grace t ∨ r'.grace = []) := by
  induction evs generalizing r with
  | nil => simp [runTrace] at h; subst h; exact hr
  | cons x xs ih =>
    simp only [runTrace] at h
    cases hs : step P cfg r x with
    | none => rw [hs] at h; exact absurd h (by simp)
    | some r1 =>
      rw [hs] at h
      apply ih r1 _ h
      obtain ⟨hk, hph⟩ := hr
      have hd : x ≠ .deadline := by
        intro hx
        subst hx
        obtain ⟨due, hdue, _⟩ := step_deadline P cfg r r1 hs
        rw [hk] at hdue
        exact absurd hdue (by simp)
      by_cases hge : x = .graceExpired
      · subst hge
        obtain ⟨due, rest, g1, _, g3, g4, _⟩ := step_graceExpired P cfg r r1 hs
        refine ⟨by rw [g4]; exact hk, Or.inr ?_⟩
        rcases hph with hph | hph
        · rw [hph.2.2.2.2] at g1
          simp only [List.cons.injEq] at g1
          rw [g3, ← g1.2]
        · rw [hph] at g1
          exact absurd g1 (by simp)
      · obtain ⟨t1, t2, t3, t4, _, t6⟩ := step_no_timer P cfg r r1 x hd hge hs
        refine ⟨t6 hk, ?_⟩
        rcases hph with hph | hph
        · obtain ⟨b1, b2, b3, b4, b5⟩ := hph
          exact Or.inl ⟨by rw [t4]; exact b1, t6 hk, by rw [t1]; exact b3, by rw [t2]; exact b4,
            by rw [t3]; exact b5⟩
        · exact Or.inr (by rw [t3]; exact hph)

theorem handleRun_spawned (P : Platform) (cfg : Config) (fs : FS) (now : Int) (body : JsVal)
    (l : Launch) (h : handleRun P cfg fs now body = .spawned l) :
    l.started = now ∧ l.delay = mathMax1 P (destructureBody cfg body).timeoutMs := by
  unfold handleRun at h
  simp only at h
  split at h
  · exact absurd h (by simp)
  · split at h
    · split at h
      · exact absurd h (by simp)
      · exact absurd h (by simp)
    · split at h
      · exact absurd h (by simp)
      · injection h with h
        subst h
        exact ⟨rfl, rfl⟩

theorem timerDelay_num (P : Platform) (n : Int) (hn : n ≤ 2147483647) :
    timerDelay (mathMax1 P (.num n)) = max 1 n := by
  have h1 : (1 : Int) ≤ max 1 n := le_max_left 1 n
  have h2 : max 1 n ≤ 2147483647 := max_le (by norm_num) hn
  simp only [mathMax1, jsToNumber, timerDelay]
  rw [if_pos ⟨h1, h2⟩]

theorem timerDelay_large (P : Platform) (n : Int) (hn : 2147483647 < n) :
    timerDelay (mathMax1 P (.num n)) = 1 := by
  have h2 : ¬ (1 ≤ max 1 n ∧ max 1 n ≤ 2147483647) := by
    intro h
    have := le_trans (le_max_right 1 n) h.2
    omega
  simp only [mathMax1, jsToNumber, timerDelay]
  rw [if_neg h2]

/-- C5, as amended: take a request that passes validation, whose handler ran
to its end (the child was launched and the timer armed), and whose child is
still running (its process has not exited) when the callback of the deadline
timer runs.  The timer is armed with `Math.max(1, timeoutMs)`: for an integer
`timeoutMs` up to 2147483647 the callback runs `max(1, timeoutMs)` ms after
the launch or later, and for a larger one the delay is 1 ms.  SIGTERM is sent
first, by that callback.  A SIGKILL is sent by the callback of the inner timer
only, which runs 5000 ms after the SIGTERM or later, and it is sent only if
the process is still running then.  When the child then closes with code `rc`,
without an `error` event, and the manifest can be written, the manifest
records `exec.killed_by_timeout` as true, and the response has status 200, no
`killedByTimeout` field, and `ok` true exactly when `rc` is the number 0. -/
theorem timeout_escalation (P : Platform) (cfg : Config) (fs : FS) (now : Int) (body : JsVal)
    (l : Launch) (evs1 evs2 : List Event) (r1 r2 r3 : Run) (dir : String)
    (hl : handleRun P cfg fs now body = .spawned l)
    (hth : l.thrown = none)
    (h1 : runTrace P cfg (Run.start l fs) evs1 = some r1)
    (halive : r1.childAlive = true)
    (h2 : step P cfg r1 .deadline = some r2)
    (h3 : runTrace P cfg r2 evs2 = some r3)
    (hevs2 : ∀ e ∈ evs2, e.isTerminal = false)
    (hdir : cfg.manifestDir = .str dir)
    (hw : r3.fs.writable (bridgeManifestPath P r3.now dir) = true) :
    (now + timerDelay (mathMax1 P (destructureBody cfg body).timeoutMs) ≤ r1.now ∧
      (∀ n : Int, (destructureBody cfg body).timeoutMs = .num n → n ≤ 2147483647 →
        now + max 1 n ≤ r1.now) ∧
      (∀ n : Int, (destructureBody cfg body).timeoutMs = .num n → 2147483647 < n →
        now + 1 ≤ r1.now) ∧
      r2.killCalls = [(r1.now, .SIGTERM)] ∧ r2.signals = [(r1.now, .SIGTERM)]) ∧
    (Event.graceExpired ∉ evs2 →
      r3.killCalls = [(r1.now, .SIGTERM)] ∧ r3.signals = [(r1.now, .SIGTERM)]) ∧
    (∀ (pre post : List Event) (r0 : Run), evs2 = pre ++ .graceExpired :: post →
      runTrace P cfg r2 pre = some r0 →
      r1.now + 5000 ≤ r0.now ∧
      r3.killCalls = [(r1.now, .SIGTERM), (r0.now, .SIGKILL)] ∧
      r3.signals = (if r0.childAlive then [(r1.now, .SIGTERM), (r0.now, .SIGKILL)]
        else [(r1.now, .SIGTERM)])) ∧
    ∀ rc : Option Int, ∃ (s : Served) (b data : JsVal) (ref : ManifestRef),
      serve P cfg fs now body (evs1 ++ .deadline :: (evs2 ++ [.childClose rc])) = some s ∧
      s.responses = [(200, b)] ∧
      b.getProp "ok" = .bool (rc == some 0) ∧
      b.getProp "killedByTimeout" = .undefined ∧
      s.manifests = [(data, ref)] ∧
      (data.getProp "exec").getProp "killed_by_timeout" = .bool true := by
  obtain ⟨hstart, hdelay⟩ := handleRun_spawned P cfg fs now body l hl
  obtain ⟨due, hk, hdue, d1, d2, d3, d4, d5, _⟩ := step_deadline P cfg r1 r2 h2
  -- the run is in the phase RUNNING when the callback runs
  have hrun : r1.Running := by
    rcases runTrace_running P cfg evs1 _ r1 (Or.inl (start_running l fs)) h1 with hr | hr
    · exact hr
    · rw [hr] at hk
      exact absurd hk (by simp)
  obtain ⟨a1, a2, a3, a4, a5, a6, a7, a8⟩ := hrun
  have hlaunch : r1.launch = l := by
    have : ∀ (evs : List Event) (r r' : Run), runTrace P cfg r evs = some r' →
        r'.launch = r.launch := by
      intro evs
      induction evs with
      | nil => intro r r' h; simp [runTrace] at h; subst h; rfl
      | cons x xs ih =>
        intro r r' h
        simp only [runTrace] at h
        cases hs : step P cfg r x with
        | none => rw [hs] at h; exact absurd h (by simp)
        | some ra =>
          rw [hs] at h
          have hla : ra.launch = r.launch := by
            by_cases hd : x = .deadline
            · subst hd
              obtain ⟨_, hdisp⟩ := step_not_crashed P cfg r ra _ hs
              simp only [dispatch] at hdisp
              split at hdisp
              · exact absurd hdisp (by simp)
              · split at hdisp
                · injection hdisp with hdisp; subst hdisp; rfl
                · exact absurd hdisp (by simp)
            · by_cases hg : x = .graceExpired
              · subst hg
                obtain ⟨_, hdisp⟩ := step_not_crashed P cfg r ra _ hs
                simp only [dispatch] at hdisp
                split at hdisp
                · exact absurd hdisp (by simp)
                · split at hdisp
                  · injection hdisp with hdisp; subst hdisp; rfl
                  · exact absurd hdisp (by simp)
              · exact (step_no_timer P cfg r ra x hd hg hs).2.2.2.2.1
          exact (ih ra r' h).trans hla
    exact this evs1 _ r1 h1
  have hdueq : due = now + timerDelay (mathMax1 P (destructureBody cfg body).timeoutMs) := by
    rw [a1, hlaunch, hstart, hdelay] at hk
    injection hk with hk
    exact hk.symm
  have hkill2 : r2.killCalls = [(r1.now, .SIGTERM)] := by rw [d3, a3]; rfl
  have hsig2 : r2.signals = [(r1.now, .SIGTERM)] := by rw [d4, halive, a4]; rfl
  have hgrace2 : r2.Grace r1.now :=
    ⟨d2, d1, hkill2, hsig2, by rw [d5, a5]; rfl⟩
  -- the request is not answered before the child closes
  have hnt2 := step_not_terminal P cfg r1 r2 .deadline rfl h2
  obtain ⟨n1, n2, n3, n4⟩ := runTrace_not_terminal P cfg evs2 r2 r3 hevs2 hnt2.2.2.2.1 h3
  have hresp3 : r3.responses = [] := by rw [n1, hnt2.1]; exact a6
  have hman3 : r3.manifests = [] := by rw [n2, hnt2.2.1]; exact a7
  have hkilled3 : r3.killedByTimeout = true := by
    have hph := runTrace_grace P cfg evs2 r2 r3 r1.now ⟨d1, Or.inl hgrace2⟩ h3
    have : ∀ (evs : List Event) (r r' : Run), r.killer = none → r.killedByTimeout = true →
        runTrace P cfg r evs = some r' → r'.killedByTimeout = true := by
      intro evs
      induction evs with
      | nil => intro r r' _ hkt h; simp [runTrace] at h; subst h; exact hkt
      | cons x xs ih =>
        intro r r' hkn hkt h
        simp only [runTrace] at h
        cases hs : step P cfg r x with
        | none => rw [hs] at h; exact absurd h (by simp)
        | some ra =>
          rw [hs] at h
          have hd : x ≠ .deadline := by
            intro hx
            subst hx
            obtain ⟨due', hdue', _⟩ := step_deadline P cfg r ra hs
            rw [hkn] at hdue'
            exact absurd hdue' (by simp)
          by_cases hg : x = .graceExpired
          · subst hg
            obtain ⟨_, _, _, _, _, g4, g5, _⟩ := step_graceExpired P cfg r ra hs
            exact ih ra r' (by rw [g4]; exact hkn) (by rw [g5]; exact hkt) h
          · obtain ⟨_, _, _, t4, _, t6⟩ := step_no_timer P cfg r ra x hd hg hs
            exact ih ra r' (t6 hkn) (by rw [t4]; exact hkt) h
    exact this evs2 r2 r3 d1 d2 h3
  refine ⟨⟨?_, ?_, ?_, hkill2, hsig2⟩, ?_, ?_, ?_⟩
  · rw [← hdueq]; exact hdue
  · intro n hn hbound
    have := timerDelay_num P n hbound
    rw [hn] at hdueq
    rw [this] at hdueq
    rw [← hdueq]
    exact hdue
  · intro n hn hbound
    have := timerDelay_large P n hbound
    rw [hn] at hdueq
    rw [this] at hdueq
    rw [← hdueq]
    exact hdue
  · intro hno
    obtain ⟨k1, k2, _⟩ := runTrace_frozen P cfg evs2 r2 r3 d1 (Or.inr hno) h3
    exact ⟨k1.trans hkill2, k2.trans hsig2⟩
  · intro pre post r0 hsplit hpre
    rw [hsplit, runTrace_append, hpre] at h3
    simp only [Option.bind, runTrace] at h3
    cases hs : step P cfg r0 .graceExpired with
    | none => rw [hs] at h3; exact absurd h3 (by simp)
    | some ra =>
      rw [hs] at h3
      obtain ⟨due', rest, g1, g2, g3, g4, _, g6, g7⟩ := step_graceExpired P cfg r0 ra hs
      obtain ⟨hk0, hph0⟩ := runTrace_grace P cfg pre r2 r0 r1.now ⟨d1, Or.inl hgrace2⟩ hpre
      rcases hph0 with hph0 | hph0
      · obtain ⟨_, _, b3, b4, b5⟩ := hph0
        rw [b5] at g1
        simp only [List.cons.injEq] at g1
        obtain ⟨hdue', hrest⟩ := g1
        obtain ⟨k1, k2, _⟩ := runTrace_frozen P cfg post ra r3 (by rw [g4]; exact hk0)
          (Or.inl (by rw [g3, ← hrest])) h3
        refine ⟨by rw [hdue']; exact g2, ?_, ?_⟩
        · rw [k1, g6, b3]; rfl
        · rw [k2, g7, b4]
          cases r0.childAlive <;> rfl
      · rw [hph0] at g1
        exact absurd g1 (by simp)
  · intro rc
    obtain ⟨r', cli, bridge, hstep, hr1, hm1, _⟩ :=
      step_childClose P cfg r3 rc dir n4 hresp3 hdir hw
    refine ⟨{ spawned := some l, responses := r'.responses, manifests := r'.manifests,
              fs := r'.fs },
      closeResponse P { r3 with killer := none, childAlive := false } rc cli bridge,
      closeManifestData P { r3 with killer := none, childAlive := false } rc cli,
      bridge, ?_, hr1, rfl, rfl, ?_, ?_⟩
    · simp only [serve, hl, hth, runTrace_append, h1, Option.bind, runTrace, h2, h3, hstep]
    · show r'.manifests = _
      rw [hm1, hman3]
      rfl
    · show JsVal.bool r3.killedByTimeout = JsVal.bool true
      rw [hkilled3]

theorem timeout_escalation_witness :
    ∃ (l : Launch) (r1 r2 r3 : Run),
      handleRun demoPlatform demoConfig demoFs 0
        (.obj [("prompt", .str "list files"), ("timeoutMs", .num 1000)]) = .spawned l ∧
      l.thrown = none ∧
      runTrace demoPlatform demoConfig (Run.start l demoFs) [.tick 1000] = some r1 ∧
      r1.childAlive = true ∧
      step demoPlatform demoConfig r1 .deadline = some r2 ∧
      runTrace demoPlatform demoConfig r2 [.tick 5000, .graceExpired, .tick 10] = some r3 ∧
      r2.killCalls = [(1000, .SIGTERM)] ∧ r2.signals = [(1000, .SIGTERM)] ∧
      r3.killCalls = [(1000, .SIGTERM), (6000, .SIGKILL)] ∧
      r3.signals = [(1000, .SIGTERM), (6000, .SIGKILL)] ∧
      ∃ (s : Served) (b data : JsVal) (ref : ManifestRef),
        serve demoPlatform demoConfig demoFs 0
          (.obj [("prompt", .str "list files"), ("timeoutMs", .num 1000)])
          ([.tick 1000] ++ .deadline ::
            ([.tick 5000, .graceExpired, .tick 10] ++ [.childClose none])) = some s ∧
        s.responses = [(200, b)] ∧
        b.getProp "ok" = .bool false ∧
        b.getProp "killedByTimeout" = .undefined ∧
        s.manifests = [(data, ref)] ∧
        (data.getProp "exec").getProp "killed_by_timeout" = .bool true := by
  have T := timeout_escalation demoPlatform demoConfig demoFs 0
    (.obj [("prompt", .str "list files"), ("timeoutMs", .num 1000)])
    _ [.tick 1000] [.tick 5000, .graceExpired, .tick 10] _ _ _ "/var/manifests"
    rfl rfl rfl rfl rfl rfl (by decide) rfl rfl
  exact ⟨_, _, _, _, rfl, rfl, rfl, rfl, rfl, rfl, T.1.2.2.2.1, T.1.2.2.2.2,
    (T.2.2.1 [.tick 5000] [.tick 10] _ rfl rfl).2.1,
    (T.2.2.1 [.tick 5000] [.tick 10] _ rfl rfl).2.2,
    T.2.2.2 none⟩

/-- Counterexample to C5 as stated.  With a timeout of 1000 ms the deadline
callback runs while the child is running and SIGTERM is sent to it; the child
handles the signal and closes with code 0 at 1500 ms: the response has `ok`
true and no `killedByTimeout` field.  The same run closing with the code null
has `ok` false and no `killedByTimeout` field either.  With a timeout of
2147483648 ms the timer is armed with a delay of 1 ms: the callback runs 1 ms
after the launch, not `max(1, timeoutMs)` ms after it, and SIGTERM is sent to
the child then. -/
theorem timeout_response_counterexample :
    (∃ (l : Launch) (r1 r : Run) (b : JsVal),
      handleRun demoPlatform demoConfig demoFs 0
        (.obj [("prompt", .str "list files"), ("timeoutMs", .num 1000)]) = .spawned l ∧
      l.thrown = none ∧
      runTrace demoPlatform demoConfig (Run.start l demoFs) [.tick 1000] = some r1 ∧
      r1.childAlive = true ∧
      runTrace demoPlatform demoConfig r1
        [.deadline, .tick 500, .childExit, .childClose (some 0)] = some r ∧
      r.killedByTimeout = true ∧ r.signals = [(1000, .SIGTERM)] ∧
      r.responses = [(200, b)] ∧
      b.getProp "ok" = .bool true ∧
      b.getProp "killedByTimeout" = .undefined ∧
      b.getProp "killed_by_timeout" = .undefined) ∧
    (∃ (l : Launch) (r1 r : Run) (b : JsVal),
      handleRun demoPlatform demoConfig demoFs 0
        (.obj [("prompt", .str "list files"), ("timeoutMs", .num 1000)]) = .spawned l ∧
      l.thrown = none ∧
      runTrace demoPlatform demoConfig (Run.start l demoFs) [.tick 1000] = some r1 ∧
      r1.childAlive = true ∧
      runTrace demoPlatform demoConfig r1
        [.deadline, .tick 500, .childExit, .childClose none] = some r ∧
      r.killedByTimeout = true ∧ r.signals = [(1000, .SIGTERM)] ∧
      r.responses = [(200, b)] ∧
      b.getProp "ok" = .bool false ∧
      b.getProp "killedByTimeout" = .undefined ∧
      b.getProp "killed_by_timeout" = .undefined) ∧
    (∃ (l : Launch) (r1 r2 : Run),
      handleRun demoPlatform demoConfig demoFs 0
        (.obj [("prompt", .str "list files"), ("timeoutMs", .num 2147483648)]) = .spawned l ∧
      l.thrown = none ∧
      l.delay = .int 2147483648 ∧
      runTrace demoPlatform demoConfig (Run.start l demoFs) [.tick 1] = some r1 ∧
      r1.now = 1 ∧ r1.childAlive = true ∧
      step demoPlatform demoConfig r1 .deadline = some r2 ∧
      r2.killedByTimeout = true ∧ r2.signals = [(1, .SIGTERM)]) :=
  ⟨⟨_, _, _, _, rfl, rfl, rfl, rfl, rfl, rfl, rfl, rfl, rfl, rfl, rfl⟩,
   ⟨_, _, _, _, rfl, rfl, rfl, rfl, rfl, rfl, rfl, rfl, rfl, rfl, rfl⟩,
   ⟨_, _, _, rfl, rfl, rfl, rfl, rfl, rfl, rfl, rfl, rfl⟩⟩

/-- C6, the code at the failing run: with a timeout of 1000 ms the child is
sent SIGTERM at 1000 ms and closes at 1500 ms, during the grace period.  The
`close` handler clears the timer `killer` only: the inner timer is still
pending, due at 6000 ms, and its callback runs then and calls
`child.kill('SIGKILL')` on the closed child (the call does nothing). -/
theorem grace_timer_not_cancelled :
    ∃ (l : Launch) (r r' : Run),
      handleRun demoPlatform demoConfig demoFs 0
        (.obj [("prompt", .str "list files"), ("timeoutMs", .num 1000)]) = .spawned l ∧
      runTrace demoPlatform demoConfig (Run.start l demoFs)
        [.tick 1000, .deadline, .tick 500, .childClose none] = some r ∧
      r.childAlive = false ∧ r.killer = none ∧ r.grace = [6000] ∧
      runTrace demoPlatform demoConfig r [.tick 4500, .graceExpired] = some r' ∧
      r'.killCalls = [(1000, .SIGTERM), (6000, .SIGKILL)] ∧
      r'.signals = [(1000, .SIGTERM)] :=
  ⟨_, _, _, rfl, rfl, rfl, rfl, rfl, rfl, rfl, rfl⟩

end CopilotBridge
